import Mathlib

/-!
Verification development for the holo-koji game server core
(a two-player hidden-information card game server).

The definitions below are a shallow functional embedding of the room's
rule engine found in the repository source (the `GameRoom` class and the
deck utilities in `utils/gameUtils.js`).  Mutation of the single mutable
`gameState` object is modelled by explicit state passing; every handler
returns the next state together with the list of outbound frames it
produced.  Randomness (the Fisher-Yates shuffle, the random id suffix on
card ids) is modelled by parameters; timers (NPC scheduling, the
round-to-round pause) are cut at the point the source hands off to a
timer callback.
-/

namespace HoloKoji

/-- Card of the deck: an id unique within a game, the geisha it belongs
to, and a type tag (`geisha-<id>` for real cards, `hidden` for masked
placeholder cards). -/
structure Card where
  id : String
  geishaId : Nat
  type : String
deriving DecidableEq

/-- Per-round one-shot action token: a type in
{secret, trade-off, gift, competition} and a used flag. -/
structure ActionToken where
  type : String
  used : Bool
deriving DecidableEq

/-- Score snapshot of a player: total charm of controlled geishas and the
number of controlled geishas. -/
structure Score where
  charm : Nat
  tokens : Nat
deriving DecidableEq

/-- Player seat state inside `gameState.players`. -/
structure Player where
  id : String
  name : String
  hand : List Card
  playedCards : List Card
  secretCards : List Card
  discardedCards : List Card
  actionTokens : List ActionToken
  score : Score
deriving DecidableEq

/-- Geisha of the catalog: id 1..7, display name, charm points, and the
player currently holding favor (if any). -/
structure Geisha where
  id : Nat
  name : String
  charmPoints : Nat
  controlledBy : Option String
deriving DecidableEq

/-- Game phase enumeration of the room state machine. -/
inductive GamePhase where
  | waiting
  | decidingOrder
  | playing
  | resolution
  | ended
deriving DecidableEq

/-- Pending two-phase interaction: a gift offering three cards to the
target, or a competition offering two groups of two cards. -/
inductive PendingInteraction where
  | giftSelection (initiatorId : String) (targetPlayerId : String)
      (offeredCards : List Card)
  | competitionSelection (initiatorId : String) (targetPlayerId : String)
      (groups : List (List Card))
deriving DecidableEq

/-- Record of the last executed action (`gameState.lastAction`). -/
structure LastAction where
  playerId : String
  action : String
deriving DecidableEq

/-- The room's canonical game state (the mutable `gameState` object of the
source, with the order-decision bookkeeping omitted: no claim concerns
it and it carries no cards). -/
structure GameState where
  gameId : String
  hostId : Option String
  players : List Player
  geishas : List Geisha
  geishaSet : String
  currentPlayer : Nat
  phase : GamePhase
  round : Nat
  winner : Option String
  drawPile : List Card
  discardPile : List Card
  removedCard : Option Card
  pendingInteraction : Option PendingInteraction
  lastAction : Option LastAction
deriving DecidableEq

/-- Outbound frame produced by the engine.  Frames addressed to a single
player carry the recipient id; frames broadcast to the whole room do
not. -/
inductive ServerEvent where
  | errorTo (playerId : String) (message : String)
  | actionExecuted (recipient : String) (actorId : String)
      (actionName : String) (cardIds : List String)
  | cardDrawn (recipient : String) (actorId : String) (card : Card)
  | pendingEvt (p : PendingInteraction)
  | interactionResolved (kind : String) (initiatorId : String)
      (targetId : String)
  | roundComplete (round : Nat)
  | gameEnded (winner : String)
  | stateBroadcast
deriving DecidableEq

/-- Result of one engine step: the next state and the frames sent. -/
structure StepResult where
  state : GameState
  events : List ServerEvent
deriving DecidableEq

/-- Room-level context that is not part of `gameState`: the connected
player ids in join order (`this.players`), and the NPC descriptor. -/
structure RoomCtx where
  players : List String
  npcId : Option String
  npcDifficulty : String
deriving DecidableEq

/-- The six game actions of the rule engine (`GAME_ACTION` payloads). -/
inductive GameAction where
  | playSecret (cardId : Option String)
  | playTradeOff (cardIds : List String)
  | initiateGift (cardIds : List String)
  | resolveGift (chosenCardId : Option String)
  | initiateCompetition (groups : List (List String))
  | resolveCompetition (chosenGroupIndex : Nat)
deriving DecidableEq

/-- Whether an action type starts with `RESOLVE_` in the source. -/
def GameAction.isResolve : GameAction → Bool
  | .resolveGift _ => true
  | .resolveCompetition _ => true
  | _ => false

/-- Whether a frame is an `ERROR` frame. -/
def ServerEvent.isError : ServerEvent → Bool
  | .errorTo _ _ => true
  | _ => false

/-- Charm distribution over the seven geishas
(`charmPointsDistribution` of `utils/gameUtils.js`). -/
def charmPointsDistribution : List Nat := [2, 2, 2, 3, 3, 4, 5]

/-- Display names of the default geisha set (`geishaData`). -/
def defaultGeishaNames : List String :=
  ["一伊那尓栖", "大神ミオ", "百鬼あやめ", "白上フブキ",
   "さくらみこ", "風真いろは", "儒烏風亭らでん"]

/-- Display names of the akatsuki geisha set (`akatsukiGeishaData`). -/
def akatsukiGeishaNames : List String :=
  ["火威青", "潤羽るしあ", "沙花叉クロヱ", "Gawr Gura",
   "湊あくあ", "天音かなた", "桐生ココ"]

/-- Geisha set lookup (`geishaSetMap`, defaulting to the default set). -/
def geishaNamesForSet (setKey : String) : List String :=
  if setKey = "akatsuki" then akatsukiGeishaNames else defaultGeishaNames

/-- Builds the geisha catalog by zipping names with the charm
distribution, assigning ids 1.. in order (`buildBaseGeishaData`). -/
def mkGeishas (startIdx : Nat) : List String → List Nat → List Geisha
  | [], _ => []
  | _, [] => []
  | n :: ns, c :: cs =>
      { id := startIdx + 1, name := n, charmPoints := c,
        controlledBy := none } :: mkGeishas (startIdx + 1) ns cs

/-- `createBaseGeishas(setKey)`: the catalog in fixed order with
`controlledBy = null`. -/
def createBaseGeishas (setKey : String) : List Geisha :=
  mkGeishas 0 (geishaNamesForSet setKey) charmPointsDistribution

/-- Card id builder: the source uses
`card-<geishaId>-<copy>-<random suffix>`; the random suffix (present only
to make ids opaque) is omitted here, keeping ids unique per (geisha, copy)
pair. -/
def mkCardId (gid copy : Nat) : String :=
  "card-" ++ toString gid ++ "-" ++ toString copy

/-- For each geisha create `charmPoints` cards (`buildDeckForGeishas`,
before the shuffle). -/
def buildCardsForGeishas (geishas : List Geisha) : List Card :=
  geishas.flatMap (fun g =>
    (List.range g.charmPoints).map (fun copy =>
      { id := mkCardId g.id copy, geishaId := g.id,
        type := "geisha-" ++ toString g.id }))

/-- Fresh player structure (`createPlayer`). -/
def createPlayer (playerId : String) : Player :=
  { id := playerId, name := playerId,
    hand := [], playedCards := [], secretCards := [], discardedCards := [],
    actionTokens :=
      [{ type := "secret", used := false },
       { type := "trade-off", used := false },
       { type := "gift", used := false },
       { type := "competition", used := false }],
    score := { charm := 0, tokens := 0 } }

/-- Masked placeholder card (`createMaskedCard`). -/
def createMaskedCard (pfx : String) (index : Nat) : Card :=
  { id := "hidden-" ++ pfx ++ "-" ++ toString index,
    geishaId := 0, type := "hidden" }

/-- Length-preserving list of placeholder cards (`createMaskedCards`). -/
def createMaskedCards (count : Nat) (pfx : String) : List Card :=
  (List.range count).map (createMaskedCard pfx)

/-- Removes the first card with the given id from a list, returning it
together with the rest (the `findIndex` + `splice(index, 1)` pattern of
the source). -/
def removeFirstById : List Card → String → Option (Card × List Card)
  | [], _ => none
  | c :: cs, cid =>
      if c.id = cid then some (c, cs)
      else
        match removeFirstById cs cid with
        | some (x, rest) => some (x, c :: rest)
        | none => none

/-- Iterates `removeFirstById` over a list of card ids, silently skipping
ids that are not found (the `forEach` + `findIndex !== -1` pattern used
by PLAY_TRADE_OFF / INITIATE_GIFT / INITIATE_COMPETITION).  Returns the
collected cards and the remaining hand. -/
def extractCards : List Card → List String → List Card × List Card
  | hand, [] => ([], hand)
  | hand, cid :: rest =>
      match removeFirstById hand cid with
      | some (c, hand2) =>
          let r := extractCards hand2 rest
          (c :: r.1, r.2)
      | none => extractCards hand rest

/-- Replaces the first player whose id matches (the object found by
`getPlayerState` is mutated in place in the source). -/
def updateFirstPlayer : List Player → String → (Player → Player) → List Player
  | [], _, _ => []
  | p :: ps, pid, f =>
      if p.id = pid then f p :: ps else p :: updateFirstPlayer ps pid f

/-- Marks the first token of the given type used
(`markActionTokenUsed`; a missing token leaves the list unchanged). -/
def markTokenUsed : List ActionToken → String → List ActionToken
  | [], _ => []
  | t :: ts, ty =>
      if t.type = ty then { t with used := true } :: ts
      else t :: markTokenUsed ts ty

/-- Finds a player's state by id (`getPlayerState`). -/
def getPlayerState (s : GameState) (playerId : String) : Option Player :=
  s.players.find? (fun p => p.id = playerId)

/-- First connected player id different from the given one
(`getOpponentId`). -/
def getOpponentId (roomPlayers : List String) (playerId : String) : Option String :=
  roomPlayers.find? (fun i => i ≠ playerId)

/-- Deals one card to each player in order; an exhausted deck skips the
push (`prepareRoundState`'s inner `forEach`). -/
def dealOnce : List Player → List Card → List Player × List Card
  | [], deck => ([], deck)
  | p :: rest, [] =>
      let r := dealOnce rest []
      (p :: r.1, r.2)
  | p :: rest, c :: deck =>
      let r := dealOnce rest deck
      ({ p with hand := p.hand ++ [c] } :: r.1, r.2)

/-- Performs `n` rounds of round-robin dealing. -/
def dealRounds : Nat → List Player → List Card → List Player × List Card
  | 0, ps, deck => (ps, deck)
  | n + 1, ps, deck =>
      let r := dealOnce ps deck
      dealRounds n r.1 r.2

/-- `prepareRoundState`: rebuild the geishas, build and split the deck,
deal 6 cards alternately, assign the remainder to `drawPile`.  The
Fisher-Yates shuffle is modelled by the `shuffled` parameter (the deck
after `shuffleArray`); `buildDeckForGeishas` then pops the last card as
the removed card.  Returns `none` when fewer than two player ids are
given (the source logs and aborts). -/
def prepareRoundState (roomId : String) (hostId : Option String)
    (geishaSet : String) (playerIds : List String) (geishas : List Geisha)
    (shuffled : List Card) (roundNumber : Nat)
    (openOrderDecision : Bool) : Option GameState :=
  if playerIds.length < 2 then none
  else
    let deck := shuffled.dropLast
    let removedCard := shuffled.getLast?
    let dealt := dealRounds 6 (playerIds.map createPlayer) deck
    some
      { gameId := roomId, hostId := hostId,
        players := dealt.1, geishas := geishas, geishaSet := geishaSet,
        currentPlayer := 0,
        phase := if openOrderDecision then .decidingOrder else .playing,
        round := roundNumber, winner := none,
        drawPile := dealt.2, discardPile := [], removedCard := removedCard,
        pendingInteraction := none, lastAction := none }

/-- Number of a player's played cards for a geisha
(`countCardsForGeisha`). -/
def countCardsForGeisha (p : Player) (geishaId : Nat) : Nat :=
  (p.playedCards.filter (fun c => c.geishaId = geishaId)).length

/-- Per-player score recomputation from the geisha catalog:
`tokens` = number of controlled geishas, `charm` = sum of their charm
points. -/
def scoreForPlayer (geishas : List Geisha) (p : Player) : Player :=
  let controlled := geishas.filter (fun g => g.controlledBy = some p.id)
  { p with score :=
      { tokens := controlled.length,
        charm := (controlled.map (fun g => g.charmPoints)).sum } }

/-- Recomputes both players' scores from the geisha catalog
(`updatePlayerScores`). -/
def updatePlayerScores (s : GameState) : GameState :=
  { s with players := s.players.map (scoreForPlayer s.geishas) }

/-- Victory check (`determineWinner`): charm totals are compared first
when either reaches 11; only otherwise are token counts compared when
either reaches 4; exact ties yield no winner. -/
def determineWinner (s : GameState) : Option String :=
  match s.players with
  | pA :: pB :: _ =>
      if 11 ≤ pA.score.charm ∨ 11 ≤ pB.score.charm then
        if pB.score.charm < pA.score.charm then some pA.id
        else if pA.score.charm < pB.score.charm then some pB.id
        else none
      else if 4 ≤ pA.score.tokens ∨ 4 ≤ pB.score.tokens then
        if pB.score.tokens < pA.score.tokens then some pA.id
        else if pA.score.tokens < pB.score.tokens then some pB.id
        else none
      else none
  | _ => none

/-- Moves a player's secret cards into the scoring area (the reveal step
of `resolveRound`; the source only touches players with a non-empty
`secretCards`). -/
def revealSecrets (p : Player) : Player :=
  if p.secretCards.isEmpty then p
  else { p with playedCards := p.playedCards ++ p.secretCards,
                secretCards := [] }

/-- Control update for one geisha given the two seats (`resolveRound`'s
per-geisha comparison): strict majority moves `controlledBy`, ties leave
it unchanged. -/
def updateGeishaControl (p0 p1 : Player) (g : Geisha) : Geisha :=
  let c0 := countCardsForGeisha p0 g.id
  let c1 := countCardsForGeisha p1 g.id
  if c1 < c0 then { g with controlledBy := some p0.id }
  else if c0 < c1 then { g with controlledBy := some p1.id }
  else g

/-- `resolveRound`: enter the resolution phase, reveal secrets, update
control per geisha, recompute scores, then check victory.  On a winner
the phase becomes `ended`; otherwise the source schedules
`startNextRound` on a 2.5 s timer, which is where this model cuts. -/
def resolveRound (s : GameState) : StepResult :=
  let s1 := { s with phase := GamePhase.resolution }
  let s2 := { s1 with players := s1.players.map revealSecrets }
  let geishas2 :=
    match s2.players with
    | p0 :: p1 :: _ => s2.geishas.map (updateGeishaControl p0 p1)
    | _ => s2.geishas
  let s3 := updatePlayerScores { s2 with geishas := geishas2 }
  match determineWinner s3 with
  | some w =>
      { state := { s3 with phase := GamePhase.ended, winner := some w },
        events := [ServerEvent.roundComplete s1.round,
                   ServerEvent.stateBroadcast,
                   ServerEvent.gameEnded w,
                   ServerEvent.stateBroadcast] }
  | none =>
      { state := s3,
        events := [ServerEvent.roundComplete s1.round,
                   ServerEvent.stateBroadcast] }

/-- `drawCardForPlayer`: pops the front of the draw pile into the
player's hand, returning `null` on an empty pile. -/
def drawCardForPlayer (drawPile : List Card) (p : Player) :
    List Card × Player × Option Card :=
  match drawPile with
  | [] => (drawPile, p, none)
  | c :: rest => (rest, { p with hand := p.hand ++ [c] }, some c)

/-- Cyclic search for the next seat with an unused token, starting at the
given index and making at most `attempts` steps (the `while` loop of
`endTurn`). -/
def findNextAvailableAux (players : List Player) : Nat → Nat → Option Nat
  | _, 0 => none
  | idx, attempts + 1 =>
      match players.get? idx with
      | some cand =>
          if cand.actionTokens.any (fun t => !t.used) then some idx
          else findNextAvailableAux players ((idx + 1) % players.length) attempts
      | none => findNextAvailableAux players ((idx + 1) % players.length) attempts

/-- Combined turn driver covering the mutually recursive
`beginTurnForCurrentPlayer` (mode `true`) and `endTurn` (mode `false`),
with a fuel argument making the bounded mutual recursion structural.  The
real recursion depth is at most three (begin → end → begin, after which
the chosen player has an unused token and draws). -/
def turnDriver (ctx : RoomCtx) : Nat → Bool → GameState → StepResult
  | 0, _, s => { state := s, events := [] }
  | fuel + 1, true, s =>
      match s.players.get? s.currentPlayer with
      | none => { state := s, events := [] }
      | some p =>
          if p.actionTokens.all (fun t => t.used) then
            turnDriver ctx fuel false s
          else
            let d := drawCardForPlayer s.drawPile p
            let s2 := { s with drawPile := d.1,
                               players := s.players.set s.currentPlayer d.2.1 }
            let drawEvents :=
              match d.2.2 with
              | some card =>
                  ctx.players.map (fun rid =>
                    ServerEvent.cardDrawn rid p.id
                      (if rid = p.id then card
                       else createMaskedCard ("draw-" ++ p.id) 0))
              | none => []
            let s3 := { s2 with phase := GamePhase.playing,
                                pendingInteraction := none,
                                lastAction := none }
            { state := s3, events := drawEvents ++ [ServerEvent.stateBroadcast] }
  | fuel + 1, false, s =>
      if s.players.any (fun p => p.actionTokens.any (fun t => !t.used)) then
        match findNextAvailableAux s.players
            ((s.currentPlayer + 1) % s.players.length) s.players.length with
        | some idx => turnDriver ctx fuel true { s with currentPlayer := idx }
        | none =>
            { state := { s with phase := GamePhase.resolution },
              events := [ServerEvent.stateBroadcast] }
      else resolveRound s

/-- `beginTurnForCurrentPlayer` as called by the source. -/
def beginTurnForCurrentPlayer (ctx : RoomCtx) (s : GameState) : StepResult :=
  turnDriver ctx 4 true s

/-- `endTurn` as called by the source after a mutating action. -/
def endTurn (ctx : RoomCtx) (s : GameState) : StepResult :=
  turnDriver ctx 3 false s

/-- `buildClientGameState`: the per-viewer sanitized projection.  The
viewer's seat passes through; every other seat gets a length-preserving
placeholder hand, an emptied `secretCards` and length-preserving
placeholder discards; the draw pile and the removed card are stripped. -/
def buildClientGameState (s : GameState) (viewerId : String) : GameState :=
  { s with
      players := s.players.map (fun p =>
        if p.id = viewerId then p
        else
          { p with
              hand := createMaskedCards p.hand.length (p.id ++ "-hand"),
              secretCards := [],
              discardedCards :=
                createMaskedCards p.discardedCards.length (p.id ++ "-discard") }),
      drawPile := [],
      removedCard := none }

/-- `validateCardOwnership`, as the error message it produces (if any):
duplicate selections are rejected first, then non-owned cards. -/
def validateCardOwnershipErr (p : Player) (cardIds : List String) :
    Option String :=
  if cardIds.Nodup then
    if cardIds.all (fun cid => p.hand.any (fun c => c.id = cid)) then none
    else some "選擇的卡片不在你的手牌中"
  else some "卡片選擇重複"

/-- `handlePlaySecret`: move one owned card from hand to `secretCards`,
mark the `secret` token used, record the action, emit per-recipient
ACTION_EXECUTED frames (card id revealed only to the actor) and end the
turn. -/
def handlePlaySecret (ctx : RoomCtx) (s : GameState) (player : Player)
    (cardId : Option String) : StepResult :=
  match cardId with
  | none =>
      { state := s, events := [ServerEvent.errorTo player.id "請選擇 1 張卡片作為密約"] }
  | some cid =>
      match removeFirstById player.hand cid with
      | none =>
          { state := s, events := [ServerEvent.errorTo player.id "卡片不在你的手牌中"] }
      | some (card, rest) =>
          let p2 := { player with
              hand := rest,
              secretCards := player.secretCards ++ [card],
              actionTokens := markTokenUsed player.actionTokens "secret" }
          let s2 := { s with
              players := updateFirstPlayer s.players player.id (fun _ => p2),
              lastAction := some { playerId := player.id, action := "secret" } }
          let evs := ctx.players.map (fun rid =>
            ServerEvent.actionExecuted rid player.id "secret"
              (if rid = player.id then [card.id] else []))
          let r := endTurn ctx s2
          { state := r.state,
            events := evs ++ [ServerEvent.stateBroadcast] ++ r.events }

/-- Continuation of `handleTradeOff` after the cards were spliced out of
the hand: if the lookup collected fewer than two cards, all removed cards
are pushed back into the hand and the action is rejected; otherwise the
two cards go to `discardedCards`, the `trade-off` token is marked used
and the turn ends. -/
def tradeOffContinue (ctx : RoomCtx) (s : GameState) (player : Player)
    (cardIds : List String) (ext : List Card × List Card) : StepResult :=
  if ext.1.length = 2 then
    let p2 := { player with
        hand := ext.2,
        discardedCards := player.discardedCards ++ ext.1,
        actionTokens := markTokenUsed player.actionTokens "trade-off" }
    let s2 := { s with
        players := updateFirstPlayer s.players player.id (fun _ => p2),
        lastAction := some { playerId := player.id, action := "trade-off" } }
    let evs := ctx.players.map (fun rid =>
      ServerEvent.actionExecuted rid player.id "trade-off"
        (if rid = player.id then cardIds else []))
    let r := endTurn ctx s2
    { state := r.state,
      events := evs ++ [ServerEvent.stateBroadcast] ++ r.events }
  else
    { state := { s with
        players := updateFirstPlayer s.players player.id
          (fun _ => { player with hand := ext.2 ++ ext.1 }) },
      events := [ServerEvent.errorTo player.id "取捨卡片驗證失敗"] }

/-- `handleTradeOff`: exactly two distinct owned cards are discarded. -/
def handleTradeOff (ctx : RoomCtx) (s : GameState) (player : Player)
    (cardIds : List String) : StepResult :=
  if cardIds.length = 2 then
    match validateCardOwnershipErr player cardIds with
    | some msg => { state := s, events := [ServerEvent.errorTo player.id msg] }
    | none => tradeOffContinue ctx s player cardIds (extractCards player.hand cardIds)
  else
    { state := s, events := [ServerEvent.errorTo player.id "取捨必須選擇 2 張卡片"] }

/-- Continuation of `handleInitiateGift` after the cards were spliced out
of the hand: an incomplete lookup rolls the cards back and rejects;
otherwise the three cards become the offered cards of a pending
`GiftSelection`, the `gift` token is marked used, and the turn does NOT
advance. -/
def giftContinue (ctx : RoomCtx) (s : GameState) (player : Player)
    (opponentId : String) (ext : List Card × List Card) : StepResult :=
  if ext.1.length = 3 then
    let p2 := { player with
        hand := ext.2,
        actionTokens := markTokenUsed player.actionTokens "gift" }
    let pend := PendingInteraction.giftSelection player.id opponentId ext.1
    let s2 := { s with
        players := updateFirstPlayer s.players player.id (fun _ => p2),
        pendingInteraction := some pend,
        lastAction := some { playerId := player.id, action := "gift" } }
    { state := s2,
      events := [ServerEvent.pendingEvt pend, ServerEvent.stateBroadcast] }
  else
    { state := { s with
        players := updateFirstPlayer s.players player.id
          (fun _ => { player with hand := ext.2 ++ ext.1 }) },
      events := [ServerEvent.errorTo player.id "贈予卡片驗證失敗"] }

/-- `handleInitiateGift`: three distinct owned cards are offered to the
opponent. -/
def handleInitiateGift (ctx : RoomCtx) (s : GameState) (player : Player)
    (cardIds : List String) : StepResult :=
  if cardIds.length = 3 then
    match validateCardOwnershipErr player cardIds with
    | some msg => { state := s, events := [ServerEvent.errorTo player.id msg] }
    | none =>
        match getOpponentId ctx.players player.id with
        | none =>
            { state := s,
              events := [ServerEvent.errorTo player.id "目前沒有對手可進行贈予"] }
        | some opponentId =>
            giftContinue ctx s player opponentId (extractCards player.hand cardIds)
  else
    { state := s, events := [ServerEvent.errorTo player.id "贈予必須選擇 3 張卡片"] }

/-- `handleResolveGift`: only the target of a pending gift may resolve it,
and only with one of the offered card ids; the chosen card joins the
target's played cards, the other two join the initiator's, the pending
interaction is cleared and the turn ends. -/
def handleResolveGift (ctx : RoomCtx) (s : GameState) (playerId : String)
    (chosenCardId : Option String) : StepResult :=
  match s.pendingInteraction with
  | some (PendingInteraction.giftSelection initiatorId targetPlayerId offeredCards) =>
      if targetPlayerId = playerId then
        match offeredCards.find? (fun c => some c.id = chosenCardId) with
        | none =>
            { state := s, events := [ServerEvent.errorTo playerId "選擇的卡片不存在"] }
        | some chosenCard =>
            match getPlayerState s initiatorId, getPlayerState s playerId with
            | some _, some _ =>
                let s2 := { s with players :=
                    updateFirstPlayer s.players playerId (fun q =>
                      { q with playedCards := q.playedCards ++ [chosenCard] }) }
                let remaining := offeredCards.filter (fun c => ¬ some c.id = chosenCardId)
                let s3 := { s2 with players :=
                    updateFirstPlayer s2.players initiatorId (fun q =>
                      { q with playedCards := q.playedCards ++ remaining }) }
                let s4 := { s3 with pendingInteraction := none }
                let r := endTurn ctx s4
                { state := r.state,
                  events := [ServerEvent.interactionResolved "GIFT_SELECTION"
                               initiatorId playerId,
                             ServerEvent.stateBroadcast] ++ r.events }
            | _, _ =>
                { state := s, events := [ServerEvent.errorTo playerId "找不到贈予對象"] }
      else
        { state := s, events := [ServerEvent.errorTo playerId "你不是贈予的目標玩家"] }
  | _ =>
      { state := s, events := [ServerEvent.errorTo playerId "目前沒有等待處理的贈予"] }

/-- Continuation of `handleInitiateCompetition` after the four cards were
spliced out: an incomplete lookup, or a group that cannot be matched back
to two extracted cards, rolls everything back; otherwise the grouped
cards become a pending `CompetitionSelection`, the `competition` token is
marked used, and the turn does NOT advance. -/
def competitionContinue (ctx : RoomCtx) (s : GameState) (player : Player)
    (opponentId : String) (groups : List (List String))
    (ext : List Card × List Card) : StepResult :=
  if ext.1.length = 4 then
    let groupedCards := groups.map (fun g =>
      g.filterMap (fun cid => ext.1.find? (fun c => c.id = cid)))
    if groupedCards.all (fun g => g.length = 2) then
      let p2 := { player with
          hand := ext.2,
          actionTokens := markTokenUsed player.actionTokens "competition" }
      let pend := PendingInteraction.competitionSelection player.id opponentId groupedCards
      let s2 := { s with
          players := updateFirstPlayer s.players player.id (fun _ => p2),
          pendingInteraction := some pend,
          lastAction := some { playerId := player.id, action := "competition" } }
      { state := s2,
        events := [ServerEvent.pendingEvt pend, ServerEvent.stateBroadcast] }
    else
      { state := { s with
          players := updateFirstPlayer s.players player.id
            (fun _ => { player with hand := ext.2 ++ ext.1 }) },
        events := [ServerEvent.errorTo player.id "競爭分組驗證失敗"] }
  else
    { state := { s with
        players := updateFirstPlayer s.players player.id
          (fun _ => { player with hand := ext.2 ++ ext.1 }) },
      events := [ServerEvent.errorTo player.id "競爭卡片驗證失敗"] }

/-- `handleInitiateCompetition`: two groups of two distinct owned cards
each. -/
def handleInitiateCompetition (ctx : RoomCtx) (s : GameState) (player : Player)
    (groups : List (List String)) : StepResult :=
  if groups.length = 2 ∧ groups.all (fun g => g.length = 2) then
    match getOpponentId ctx.players player.id with
    | none =>
        { state := s,
          events := [ServerEvent.errorTo player.id "目前沒有對手可進行競爭"] }
    | some opponentId =>
        let flattened := groups.flatten
        match validateCardOwnershipErr player flattened with
        | some msg => { state := s, events := [ServerEvent.errorTo player.id msg] }
        | none =>
            competitionContinue ctx s player opponentId groups
              (extractCards player.hand flattened)
  else
    { state := s,
      events := [ServerEvent.errorTo player.id "競爭必須分成兩組，每組 2 張卡片"] }

/-- `handleResolveCompetition`: only the target of a pending competition
may resolve it, choosing group 0 or 1; the chosen group joins the
target's played cards, the other joins the initiator's, the pending
interaction is cleared and the turn ends. -/
def handleResolveCompetition (ctx : RoomCtx) (s : GameState) (playerId : String)
    (chosenGroupIndex : Nat) : StepResult :=
  match s.pendingInteraction with
  | some (PendingInteraction.competitionSelection initiatorId targetPlayerId pgroups) =>
      if targetPlayerId = playerId then
        match pgroups.get? chosenGroupIndex with
        | none =>
            { state := s, events := [ServerEvent.errorTo playerId "選擇的組別不存在"] }
        | some selectedGroup =>
            let opponentGroup :=
              (pgroups.get? (if chosenGroupIndex = 0 then 1 else 0)).getD []
            match getPlayerState s initiatorId, getPlayerState s playerId with
            | some _, some _ =>
                let s2 := { s with players :=
                    updateFirstPlayer s.players playerId (fun q =>
                      { q with playedCards := q.playedCards ++ selectedGroup }) }
                let s3 := { s2 with players :=
                    updateFirstPlayer s2.players initiatorId (fun q =>
                      { q with playedCards := q.playedCards ++ opponentGroup }) }
                let s4 := { s3 with pendingInteraction := none }
                let r := endTurn ctx s4
                { state := r.state,
                  events := [ServerEvent.interactionResolved "COMPETITION_SELECTION"
                               initiatorId playerId,
                             ServerEvent.stateBroadcast] ++ r.events }
            | _, _ =>
                { state := s, events := [ServerEvent.errorTo playerId "找不到競爭對象"] }
      else
        { state := s, events := [ServerEvent.errorTo playerId "你不是競爭的目標玩家"] }
  | _ =>
      { state := s, events := [ServerEvent.errorTo playerId "目前沒有等待處理的競爭"] }

/-- Whether it is the given player's turn (`validatePlayerTurn`). -/
def currentPlayerIs (s : GameState) (playerId : String) : Bool :=
  match s.players.get? s.currentPlayer with
  | some p => p.id = playerId
  | none => false

/-- Whether the player's token of the given type exists and is unused
(`validateActionAvailable`). -/
def tokenAvailable (p : Player) (ty : String) : Bool :=
  match p.actionTokens.find? (fun t => t.type = ty) with
  | some t => !t.used
  | none => false

/-- `handleAction`: the single entry point of the rule engine.  It
validates room membership, the pending-interaction discipline and the
phase, then dispatches per action type with turn and token validation for
the four initiating actions.  Every validation failure sends a single
ERROR frame to the offending player and leaves the state untouched. -/
def handleAction (ctx : RoomCtx) (s : GameState) (pid : String)
    (a : GameAction) : StepResult :=
  if pid ∈ ctx.players then
    match s.players.find? (fun q => q.id = pid) with
    | none => { state := s, events := [ServerEvent.errorTo pid "玩家資料不存在"] }
    | some player =>
        if s.pendingInteraction.isSome ∧ a.isResolve = false then
          { state := s, events := [ServerEvent.errorTo pid "目前正在等待對手回應"] }
        else if s.pendingInteraction.isNone ∧ a.isResolve = true then
          { state := s, events := [ServerEvent.errorTo pid "目前沒有等待處理的互動"] }
        else if ¬ s.phase = GamePhase.playing ∧ a.isResolve = false then
          { state := s, events := [ServerEvent.errorTo pid "目前無法執行行動"] }
        else
          match a with
          | .playSecret cardId =>
              if currentPlayerIs s pid then
                if tokenAvailable player "secret" then
                  handlePlaySecret ctx s player cardId
                else { state := s, events := [ServerEvent.errorTo pid "該行動已使用或不存在"] }
              else { state := s, events := [ServerEvent.errorTo pid "不是你的回合"] }
          | .playTradeOff cardIds =>
              if currentPlayerIs s pid then
                if tokenAvailable player "trade-off" then
                  handleTradeOff ctx s player cardIds
                else { state := s, events := [ServerEvent.errorTo pid "該行動已使用或不存在"] }
              else { state := s, events := [ServerEvent.errorTo pid "不是你的回合"] }
          | .initiateGift cardIds =>
              if currentPlayerIs s pid then
                if tokenAvailable player "gift" then
                  handleInitiateGift ctx s player cardIds
                else { state := s, events := [ServerEvent.errorTo pid "該行動已使用或不存在"] }
              else { state := s, events := [ServerEvent.errorTo pid "不是你的回合"] }
          | .resolveGift chosenCardId =>
              handleResolveGift ctx s pid chosenCardId
          | .initiateCompetition groups =>
              if currentPlayerIs s pid then
                if tokenAvailable player "competition" then
                  handleInitiateCompetition ctx s player groups
                else { state := s, events := [ServerEvent.errorTo pid "該行動已使用或不存在"] }
              else { state := s, events := [ServerEvent.errorTo pid "不是你的回合"] }
          | .resolveCompetition idx =>
              handleResolveCompetition ctx s pid idx
  else
    { state := s, events := [ServerEvent.errorTo pid "玩家不在房間內"] }

/-- Entry of the AI's per-geisha count snapshot
(`buildGeishaCountSnapshot`). -/
structure SnapEntry where
  npc : Nat
  opp : Nat
  charm : Nat
deriving DecidableEq

/-- Per-geisha snapshot used by the AI: for each geisha, the NPC's and
the opponent's played-card counts and the geisha's charm. -/
def buildGeishaCountSnapshot (geishas : List Geisha)
    (npcPlayer opponentPlayer : Player) : List (Nat × SnapEntry) :=
  geishas.map (fun g =>
    (g.id,
     { npc := (npcPlayer.playedCards.filter (fun c => c.geishaId = g.id)).length,
       opp := (opponentPlayer.playedCards.filter (fun c => c.geishaId = g.id)).length,
       charm := g.charmPoints }))

/-- Snapshot lookup (`snapshot.get(geishaId)` on the source's `Map`). -/
def snapshotGet (snapshot : List (Nat × SnapEntry)) (geishaId : Nat) :
    Option SnapEntry :=
  (snapshot.find? (fun e => e.1 = geishaId)).map (fun e => e.2)

/-- `getCardUtility`: value of one more card of a geisha for a side.
Overtaking (or catching up from level) is worth 4×charm, tying is worth
2×charm, anything else the bare charm.  A geisha missing from the
snapshot is worth 0. -/
def getCardUtility (snapshot : List (Nat × SnapEntry)) (geishaId : Nat)
    (isNpc : Bool) : Nat :=
  match snapshotGet snapshot geishaId with
  | none => 0
  | some entry =>
      let myCount := if isNpc then entry.npc else entry.opp
      let oppCount := if isNpc then entry.opp else entry.npc
      let charm := entry.charm
      if oppCount < myCount + 1 ∧ myCount ≤ oppCount then charm * 4
      else if myCount + 1 = oppCount then charm * 2
      else charm

/-- Inserts a card into a list kept in descending utility order (model of
the source's `Array.prototype.sort` with comparator
`utility(b) - utility(a)`). -/
def insertDescBy (key : Card → Nat) (c : Card) : List Card → List Card
  | [] => [c]
  | x :: xs =>
      if key x < key c then c :: x :: xs
      else x :: insertDescBy key c xs

/-- Sorts cards by descending utility (insertion sort). -/
def sortDescBy (key : Card → Nat) : List Card → List Card
  | [] => []
  | x :: xs => insertDescBy key x (sortDescBy key xs)

/-- `pickNpcGiftCard`: the NPC's reply to a gift.  On `easy` a uniformly
random offered card is returned (the randomness is modelled by the
`randPick` parameter); on every other difficulty the offered cards are
sorted by descending utility to the NPC and the first is taken.  When
either player state is missing the first offered card is returned. -/
def pickNpcGiftCard (ctx : RoomCtx) (s : GameState) (cards : List Card)
    (randPick : List Card → Option Card) : Option Card :=
  if cards.isEmpty then none
  else if ctx.npcDifficulty = "easy" then randPick cards
  else
    match ctx.npcId with
    | none => cards.head?
    | some npcId =>
        match getPlayerState s npcId,
              (getOpponentId ctx.players npcId).bind (getPlayerState s) with
        | some npcPlayer, some opponent =>
            let snapshot := buildGeishaCountSnapshot s.geishas npcPlayer opponent
            (sortDescBy (fun c => getCardUtility snapshot c.geishaId true) cards).head?
        | _, _ => cards.head?

/-- All cards sitting in the piles the specification's invariant lists:
draw pile, discard pile, removed card, and the four per-player piles. -/
def playerCards (p : Player) : List Card :=
  p.hand ++ p.playedCards ++ p.secretCards ++ p.discardedCards

/-- Cards held inside a pending interaction (offered cards of a gift, or
the two groups of a competition). -/
def pendingCards : Option PendingInteraction → List Card
  | none => []
  | some (PendingInteraction.giftSelection _ _ offered) => offered
  | some (PendingInteraction.competitionSelection _ _ groups) => groups.flatten

/-- The piles named by the specification's conservation invariant
(without the pending interaction's cards). -/
def listedCards (s : GameState) : List Card :=
  s.drawPile ++ s.discardPile ++ s.removedCard.toList ++
    s.players.flatMap playerCards

/-- Every card the room state holds, pending interaction included. -/
def stateCards (s : GameState) : List Card :=
  listedCards s ++ pendingCards s.pendingInteraction

/-- The room's card multiset (pending interaction included). -/
def cardMultiset (s : GameState) : Multiset Card :=
  (stateCards s : Multiset Card)

/-- Shape every pending interaction created by the engine has: a gift
offers three cards with pairwise distinct ids (they were spliced out of
one hand after a duplicate check), a competition holds exactly two
groups. -/
def pendingWFb (s : GameState) : Bool :=
  match s.pendingInteraction with
  | some (PendingInteraction.giftSelection _ _ offered) =>
      (offered.map Card.id).Nodup
  | some (PendingInteraction.competitionSelection _ _ groups) =>
      groups.length == 2
  | none => true

theorem dropLast_append_getLastList (l : List Card) :
    l.dropLast ++ l.getLast?.toList = l := by
  cases h : l.getLast? with
  | none =>
      have : l = [] := List.getLast?_eq_none_iff.mp h
      simp [this]
  | some a =>
      simpa using List.dropLast_append_getLast? a h

theorem removeFirst_spec {l : List Card} {cid : String} {c : Card}
    {rest : List Card} (h : removeFirstById l cid = some (c, rest)) :
    c.id = cid ∧ l.Perm (c :: rest) := by
  induction l generalizing rest with
  | nil => simp [removeFirstById] at h
  | cons x xs ih =>
      by_cases hx : x.id = cid
      · simp [removeFirstById, hx] at h
        obtain ⟨hc, hrest⟩ := h
        subst hc; subst hrest
        exact ⟨hx, List.Perm.refl _⟩
      · simp [removeFirstById, hx] at h
        cases hrec : removeFirstById xs cid with
        | none => simp [hrec] at h
        | some pr =>
            obtain ⟨y, r⟩ := pr
            simp [hrec] at h
            obtain ⟨hc, hrest⟩ := h
            subst hc; subst hrest
            obtain ⟨hid, hperm⟩ := ih hrec
            exact ⟨hid, (hperm.cons x).trans (List.Perm.swap _ _ _)⟩

theorem removeFirst_isSome_iff {l : List Card} {cid : String} :
    (removeFirstById l cid).isSome ↔ ∃ c ∈ l, c.id = cid := by
  induction l with
  | nil => simp [removeFirstById]
  | cons x xs ih =>
      by_cases hx : x.id = cid
      · simp [removeFirstById, hx]
      · simp only [removeFirstById, hx, if_false]
        cases hrec : removeFirstById xs cid with
        | none =>
            simp only [hrec, Option.isSome_none] at ih ⊢
            simp only [Bool.false_eq_true, false_iff] at ih
            simp only [Bool.false_eq_true, false_iff]
            intro hmem
            obtain ⟨c, hc, hcid⟩ := hmem
            rcases List.mem_cons.mp hc with hceq | hcxs
            · exact hx (hceq ▸ hcid)
            · exact ih ⟨c, hcxs, hcid⟩
        | some pr =>
            simp only [hrec, Option.isSome_some, true_iff] at ih
            obtain ⟨c, hc, hcid⟩ := ih
            simp only [Option.isSome_some, true_iff]
            exact ⟨c, List.mem_cons_of_mem x hc, hcid⟩

theorem extract_append_perm (ids : List String) :
    ∀ l : List Card, ((extractCards l ids).1 ++ (extractCards l ids).2).Perm l := by
  induction ids with
  | nil => intro l; simp [extractCards]
  | cons cid rest ih =>
      intro l
      cases hrem : removeFirstById l cid with
      | none => simpa [extractCards, hrem] using ih l
      | some pr =>
          obtain ⟨c, l2⟩ := pr
          obtain ⟨-, hperm⟩ := removeFirst_spec hrem
          have heq : (extractCards l (cid :: rest)).1 ++ (extractCards l (cid :: rest)).2
              = c :: ((extractCards l2 rest).1 ++ (extractCards l2 rest).2) := by
            simp [extractCards, hrem]
          rw [heq]
          exact ((ih l2).cons c).trans hperm.symm

theorem extract_map_id :
    ∀ (ids : List String) (l : List Card), ids.Nodup →
      (∀ cid ∈ ids, ∃ c ∈ l, c.id = cid) →
      (extractCards l ids).1.map Card.id = ids := by
  intro ids
  induction ids with
  | nil => intro l _ _; simp [extractCards]
  | cons cid rest ih =>
      intro l hnd hall
      have hsome : (removeFirstById l cid).isSome :=
        removeFirst_isSome_iff.mpr (hall cid (List.mem_cons_self cid rest))
      cases hrem : removeFirstById l cid with
      | none => rw [hrem] at hsome; simp at hsome
      | some pr =>
          obtain ⟨c0, l2⟩ := pr
          obtain ⟨hc0, hperm⟩ := removeFirst_spec hrem
          have hndrest : rest.Nodup := hnd.of_cons
          have hcidrest : cid ∉ rest := (List.nodup_cons.mp hnd).1
          have hall2 : ∀ cid2 ∈ rest, ∃ c ∈ l2, c.id = cid2 := by
            intro cid2 hmem
            obtain ⟨c, hc, hcid2⟩ := hall cid2 (List.mem_cons_of_mem cid hmem)
            have hc12 : c ∈ c0 :: l2 := hperm.mem_iff.mp hc
            rcases List.mem_cons.mp hc12 with hceq | hcl2
            · exfalso
              apply hcidrest
              have : cid2 = cid := by rw [← hcid2, hceq, hc0]
              exact this ▸ hmem
            · exact ⟨c, hcl2, hcid2⟩
          simp only [extractCards, hrem, List.map_cons, hc0]
          exact congrArg (cid :: ·) (ih l2 hndrest hall2)

theorem extract_length {ids : List String} {l : List Card}
    (hnd : ids.Nodup) (hall : ∀ cid ∈ ids, ∃ c ∈ l, c.id = cid) :
    (extractCards l ids).1.length = ids.length := by
  have := extract_map_id ids l hnd hall
  calc (extractCards l ids).1.length
      = ((extractCards l ids).1.map Card.id).length := (List.length_map _ _).symm
    _ = ids.length := by rw [this]

theorem updateFirst_flatMap_multiset (g : Player → List Card) :
    ∀ (l : List Player) (pid : String) (f : Player → Player) (q : Player),
      l.find? (fun p => p.id = pid) = some q →
      (((updateFirstPlayer l pid f).flatMap g : List Card) : Multiset Card)
          + (g q : Multiset Card)
        = ((l.flatMap g : List Card) : Multiset Card)
          + (g (f q) : Multiset Card) := by
  intro l
  induction l with
  | nil => intro pid f q h; simp [List.find?] at h
  | cons p ps ih =>
      intro pid f q h
      by_cases hp : p.id = pid
      · rw [List.find?_cons_of_pos _ (by simpa using hp)] at h
        have hq : q = p := by injection h with h2; exact h2.symm
        subst hq
        simp only [updateFirstPlayer, hp, if_true, List.flatMap_cons,
          ← Multiset.coe_add]
        abel
      · rw [List.find?_cons_of_neg _ (by simpa using hp)] at h
        simp only [updateFirstPlayer, hp, if_false, List.flatMap_cons,
          ← Multiset.coe_add]
        have := ih pid f q h
        calc (g p : Multiset Card) + ((updateFirstPlayer ps pid f).flatMap g : Multiset Card) + (g q : Multiset Card)
            = (g p : Multiset Card) + (((updateFirstPlayer ps pid f).flatMap g : Multiset Card) + (g q : Multiset Card)) := by abel
          _ = (g p : Multiset Card) + ((ps.flatMap g : Multiset Card) + (g (f q) : Multiset Card)) := by rw [this]
          _ = (g p : Multiset Card) + (ps.flatMap g : Multiset Card) + (g (f q) : Multiset Card) := by abel

theorem set_flatMap_multiset (g : Player → List Card) :
    ∀ (l : List Player) (n : Nat) (p p2 : Player), l.get? n = some p →
      (((l.set n p2).flatMap g : List Card) : Multiset Card)
          + (g p : Multiset Card)
        = ((l.flatMap g : List Card) : Multiset Card)
          + (g p2 : Multiset Card) := by
  intro l
  induction l with
  | nil => intro n p p2 h; simp at h
  | cons x xs ih =>
      intro n p p2 h
      cases n with
      | zero =>
          have hx : p = x := by simpa using h.symm
          subst hx
          simp only [List.set_cons_zero, List.flatMap_cons, ← Multiset.coe_add]
          abel
      | succ m =>
          have h2 : xs.get? m = some p := by simpa using h
          simp only [List.set_cons_succ, List.flatMap_cons, ← Multiset.coe_add]
          have := ih m p p2 h2
          calc (g x : Multiset Card) + ((xs.set m p2).flatMap g : Multiset Card) + (g p : Multiset Card)
              = (g x : Multiset Card) + (((xs.set m p2).flatMap g : Multiset Card) + (g p : Multiset Card)) := by abel
            _ = (g x : Multiset Card) + ((xs.flatMap g : Multiset Card) + (g p2 : Multiset Card)) := by rw [this]
            _ = (g x : Multiset Card) + (xs.flatMap g : Multiset Card) + (g p2 : Multiset Card) := by abel

theorem flatMap_map_multiset (f : Player → Player) (g : Player → List Card)
    (h : ∀ p, ((g (f p) : List Card) : Multiset Card) = (g p : Multiset Card)) :
    ∀ l : List Player,
      (((l.map f).flatMap g : List Card) : Multiset Card)
        = ((l.flatMap g : List Card) : Multiset Card) := by
  intro l
  induction l with
  | nil => simp
  | cons x xs ih =>
      simp only [List.map_cons, List.flatMap_cons, ← Multiset.coe_add, ih, h x]

theorem find?_filter_perm {cid : Option String} :
    ∀ {offered : List Card} {chosen : Card},
      (offered.map Card.id).Nodup →
      offered.find? (fun c => some c.id = cid) = some chosen →
      offered.Perm (chosen :: offered.filter (fun c => ¬ some c.id = cid)) := by
  intro offered
  induction offered with
  | nil => intro chosen _ hf; simp [List.find?] at hf
  | cons x xs ih =>
      intro chosen hnd hf
      by_cases hx : some x.id = cid
      · rw [List.find?_cons_of_pos _ (by simpa using hx)] at hf
        have hcx : chosen = x := by injection hf with h2; exact h2.symm
        have hxs : xs.filter (fun c => ¬ some c.id = cid) = xs := by
          apply List.filter_eq_self.mpr
          intro c hc
          have hne : c.id ≠ x.id := by
            intro heq
            have : x.id ∈ xs.map Card.id := heq ▸ List.mem_map_of_mem Card.id hc
            exact (List.nodup_cons.mp (by simpa using hnd)).1 this
          simp only [decide_eq_true_eq]
          intro hcc
          have h4 : some c.id = some x.id := hcc.trans hx.symm
          injection h4 with h5
          exact hne h5
        have hxf : ¬ (fun c => decide (¬ some c.id = cid)) x = true := by
          simp [hx]
        simp only [List.filter_cons]
        rw [if_neg hxf, hxs, hcx]
      · rw [List.find?_cons_of_neg _ (by simpa using hx)] at hf
        have hnd2 : (xs.map Card.id).Nodup := by
          simpa using (List.nodup_cons.mp (by simpa using hnd)).2
        have hperm := ih hnd2 hf
        have hxf : (fun c => decide (¬ some c.id = cid)) x = true := by
          simp [hx]
        simp only [List.filter_cons]
        rw [if_pos hxf]
        exact (hperm.cons x).trans (List.Perm.swap _ _ _)

theorem set_get_self :
    ∀ (l : List Player) (n : Nat) (a : Player), l.get? n = some a →
      l.set n a = l := by
  intro l
  induction l with
  | nil => intro n a h; simp at h
  | cons x xs ih =>
      intro n a h
      cases n with
      | zero =>
          have : a = x := by simpa using h.symm
          simp [this]
      | succ m =>
          have h2 : xs.get? m = some a := by simpa using h
          simp [ih m a h2]

theorem cardMultiset_eq_of {s s' : GameState}
    (hdraw : s'.drawPile = s.drawPile)
    (hdisc : s'.discardPile = s.discardPile)
    (hrem : s'.removedCard = s.removedCard)
    (hpend : s'.pendingInteraction = s.pendingInteraction)
    (hps : ((s'.players.flatMap playerCards : List Card) : Multiset Card)
      = ((s.players.flatMap playerCards : List Card) : Multiset Card)) :
    cardMultiset s' = cardMultiset s := by
  simp only [cardMultiset, stateCards, listedCards, hdraw, hdisc, hrem, hpend,
    ← Multiset.coe_add, hps]

theorem playerCards_reveal_multiset (p : Player) :
    ((playerCards (revealSecrets p) : List Card) : Multiset Card)
      = ((playerCards p : List Card) : Multiset Card) := by
  by_cases h : p.secretCards.isEmpty
  · simp [revealSecrets, h]
  · simp only [revealSecrets, h, Bool.false_eq_true, if_false, playerCards,
      ← Multiset.coe_add]
    abel

theorem cardMultiset_resolveRound (s : GameState) :
    cardMultiset (resolveRound s).state = cardMultiset s := by
  have hplayers :
      ∀ (geishas2 : List Geisha),
        (((updatePlayerScores
            { s with phase := GamePhase.resolution,
                     players := s.players.map revealSecrets,
                     geishas := geishas2 }).players.flatMap playerCards
            : List Card) : Multiset Card)
          = ((s.players.flatMap playerCards : List Card) : Multiset Card) := by
    intro geishas2
    simp only [updatePlayerScores]
    exact Eq.trans
      (flatMap_map_multiset (scoreForPlayer geishas2) playerCards
        (fun p => rfl) (List.map revealSecrets s.players))
      (flatMap_map_multiset revealSecrets playerCards
        playerCards_reveal_multiset s.players)
  simp only [resolveRound]
  split
  · exact cardMultiset_eq_of rfl rfl rfl rfl (hplayers _)
  · exact cardMultiset_eq_of rfl rfl rfl rfl (hplayers _)

theorem cardMultiset_unfold (s : GameState) :
    cardMultiset s
      = (s.drawPile : Multiset Card) + (s.discardPile : Multiset Card)
        + (s.removedCard.toList : Multiset Card)
        + ((s.players.flatMap playerCards : List Card) : Multiset Card)
        + ((pendingCards s.pendingInteraction : List Card) : Multiset Card) := by
  simp only [cardMultiset, stateCards, listedCards, ← Multiset.coe_add]

theorem cardMultiset_turnDriver (ctx : RoomCtx) :
    ∀ (fuel : Nat) (mode : Bool) (s : GameState),
      s.pendingInteraction = none →
      cardMultiset (turnDriver ctx fuel mode s).state = cardMultiset s := by
  intro fuel
  induction fuel with
  | zero => intro mode s _; rfl
  | succ fuel ih =>
      intro mode s hpend
      cases mode with
      | false =>
          simp only [turnDriver]
          split
          next hany =>
            split
            next idx hfind => exact ih true { s with currentPlayer := idx } hpend
            next hfind => exact cardMultiset_eq_of rfl rfl rfl rfl rfl
          next hany => exact cardMultiset_resolveRound s
      | true =>
          simp only [turnDriver]
          split
          next hget => rfl
          next p hget =>
            split
            next hall => exact ih false s hpend
            next hall =>
              cases hpile : s.drawPile with
              | nil =>
                  have hsetp := set_get_self s.players s.currentPlayer p hget
                  simp only [drawCardForPlayer, hpile]
                  refine cardMultiset_eq_of ?_ rfl rfl ?_ ?_
                  · simpa using hpile.symm
                  · simpa using hpend.symm
                  · simp [hsetp]
              | cons c rest =>
                  have hset := set_flatMap_multiset playerCards s.players
                    s.currentPlayer p { p with hand := p.hand ++ [c] } hget
                  have hp2 : ((playerCards { p with hand := p.hand ++ [c] }
                        : List Card) : Multiset Card)
                      = ((playerCards p : List Card) : Multiset Card)
                        + (([c] : List Card) : Multiset Card) := by
                    simp only [playerCards, ← Multiset.coe_add]
                    abel
                  have hA : ((List.flatMap
                        (s.players.set s.currentPlayer
                          { p with hand := p.hand ++ [c] }) playerCards
                        : List Card) : Multiset Card)
                      = ((s.players.flatMap playerCards : List Card) : Multiset Card)
                        + (([c] : List Card) : Multiset Card) := by
                    have h2 : ((List.flatMap
                          (s.players.set s.currentPlayer
                            { p with hand := p.hand ++ [c] }) playerCards
                          : List Card) : Multiset Card)
                          + ((playerCards p : List Card) : Multiset Card)
                        = (((s.players.flatMap playerCards : List Card) : Multiset Card)
                            + (([c] : List Card) : Multiset Card))
                          + ((playerCards p : List Card) : Multiset Card) := by
                      rw [hset, hp2]; abel
                    exact add_right_cancel h2
                  simp only [drawCardForPlayer, hpile]
                  rw [cardMultiset_unfold, cardMultiset_unfold]
                  simp only [hpend, pendingCards, hpile]
                  rw [hA]
                  have hcons : ((c :: rest : List Card) : Multiset Card)
                      = (([c] : List Card) : Multiset Card)
                        + ((rest : List Card) : Multiset Card) := by
                    simp [← Multiset.coe_add]
                  rw [hcons]
                  abel

theorem coe_perm {l₁ l₂ : List Card} (h : l₁.Perm l₂) :
    (l₁ : Multiset Card) = (l₂ : Multiset Card) :=
  Multiset.coe_eq_coe.mpr h

theorem updateFirst_flatMap_preserve {l : List Player} {pid : String}
    {f : Player → Player} {q : Player}
    (hfind : l.find? (fun p => p.id = pid) = some q)
    (hf : ((playerCards (f q) : List Card) : Multiset Card)
      = ((playerCards q : List Card) : Multiset Card)) :
    (((updateFirstPlayer l pid f).flatMap playerCards : List Card) : Multiset Card)
      = ((l.flatMap playerCards : List Card) : Multiset Card) := by
  have h := updateFirst_flatMap_multiset playerCards l pid f q hfind
  rw [hf] at h
  exact add_right_cancel h

theorem find?_updateFirst_isSome (pid pid2 : String) (f : Player → Player)
    (hid : ∀ p, (f p).id = p.id) :
    ∀ {l : List Player},
      (l.find? (fun p => p.id = pid2)).isSome →
      ((updateFirstPlayer l pid f).find? (fun p => p.id = pid2)).isSome := by
  intro l
  induction l with
  | nil => intro h; simp [List.find?] at h
  | cons p ps ih =>
      intro h
      by_cases hp : p.id = pid
      · simp only [updateFirstPlayer, hp, if_true]
        by_cases hp2 : p.id = pid2
        · rw [List.find?_cons_of_pos _ (by simp [hid, hp2])]
          simp
        · rw [List.find?_cons_of_neg _ (by simp [hid, hp2])]
          rw [List.find?_cons_of_neg _ (by simp [hp2])] at h
          exact h
      · simp only [updateFirstPlayer, hp, if_false]
        by_cases hp2 : p.id = pid2
        · rw [List.find?_cons_of_pos _ (by simp [hp2])]
          simp
        · rw [List.find?_cons_of_neg _ (by simp [hp2])]
          rw [List.find?_cons_of_neg _ (by simp [hp2])] at h
          exact ih h

theorem filterMap_flatten (f : String → Option Card) :
    ∀ l : List (List String),
      (l.map (fun g => g.filterMap f)).flatten = l.flatten.filterMap f := by
  intro l
  induction l with
  | nil => simp
  | cons g gs ih =>
      simp only [List.map_cons, List.flatten_cons, List.filterMap_append, ih]

theorem filterMap_congr_mem {f g : String → Option Card} :
    ∀ {l : List String}, (∀ a ∈ l, f a = g a) → l.filterMap f = l.filterMap g := by
  intro l
  induction l with
  | nil => intro _; rfl
  | cons a as ih =>
      intro h
      simp only [List.filterMap_cons, h a (List.mem_cons_self a as),
        ih (fun b hb => h b (List.mem_cons_of_mem a hb))]

theorem find_reconstruct :
    ∀ cards : List Card, (cards.map Card.id).Nodup →
      (cards.map Card.id).filterMap
        (fun cid => cards.find? (fun c => c.id = cid)) = cards := by
  intro cards
  induction cards with
  | nil => simp
  | cons c cs ih =>
      intro hnd
      have hnd2 : (cs.map Card.id).Nodup := (List.nodup_cons.mp hnd).2
      have hcnot : c.id ∉ cs.map Card.id := (List.nodup_cons.mp hnd).1
      simp only [List.map_cons, List.filterMap_cons]
      rw [List.find?_cons_of_pos _ (by simp)]
      have hrest : (cs.map Card.id).filterMap
          (fun cid => (c :: cs).find? (fun x => x.id = cid))
          = (cs.map Card.id).filterMap
            (fun cid => cs.find? (fun x => x.id = cid)) := by
        apply filterMap_congr_mem
        intro a ha
        have hne : ¬ c.id = a := by
          intro heq
          exact hcnot (heq ▸ ha)
        rw [List.find?_cons_of_neg _ (by simpa using hne)]
      rw [hrest, ih hnd2]

theorem updateFirst_flatMap_add {l : List Player} {pid : String} {q : Player}
    (f : Player → Player) (cs : List Card)
    (hfind : l.find? (fun p => p.id = pid) = some q)
    (hf : ((playerCards (f q) : List Card) : Multiset Card)
      = ((playerCards q : List Card) : Multiset Card) + (cs : Multiset Card)) :
    (((updateFirstPlayer l pid f).flatMap playerCards : List Card) : Multiset Card)
      = ((l.flatMap playerCards : List Card) : Multiset Card) + (cs : Multiset Card) := by
  have h := updateFirst_flatMap_multiset playerCards l pid f q hfind
  rw [hf] at h
  have h2 : (((updateFirstPlayer l pid f).flatMap playerCards : List Card) : Multiset Card)
        + ((playerCards q : List Card) : Multiset Card)
      = (((l.flatMap playerCards : List Card) : Multiset Card) + (cs : Multiset Card))
        + ((playerCards q : List Card) : Multiset Card) := by
    rw [h]; abel
  exact add_right_cancel h2

theorem updateFirst_flatMap_sub {l : List Player} {pid : String} {q : Player}
    (f : Player → Player) (cs : List Card)
    (hfind : l.find? (fun p => p.id = pid) = some q)
    (hf : ((playerCards (f q) : List Card) : Multiset Card) + (cs : Multiset Card)
      = ((playerCards q : List Card) : Multiset Card)) :
    (((updateFirstPlayer l pid f).flatMap playerCards : List Card) : Multiset Card)
        + (cs : Multiset Card)
      = ((l.flatMap playerCards : List Card) : Multiset Card) := by
  have h := updateFirst_flatMap_multiset playerCards l pid f q hfind
  have h2 : ((((updateFirstPlayer l pid f).flatMap playerCards : List Card) : Multiset Card)
        + (cs : Multiset Card)) + ((playerCards (f q) : List Card) : Multiset Card)
      = ((l.flatMap playerCards : List Card) : Multiset Card)
        + ((playerCards (f q) : List Card) : Multiset Card) := by
    calc (((updateFirstPlayer l pid f).flatMap playerCards : List Card) : Multiset Card)
            + (cs : Multiset Card) + ((playerCards (f q) : List Card) : Multiset Card)
        = ((((updateFirstPlayer l pid f).flatMap playerCards : List Card) : Multiset Card)
            + ((playerCards q : List Card) : Multiset Card)) := by rw [← hf]; abel
      _ = ((l.flatMap playerCards : List Card) : Multiset Card)
            + ((playerCards (f q) : List Card) : Multiset Card) := h
  exact add_right_cancel h2

theorem cardMultiset_handlePlaySecret (ctx : RoomCtx) (s : GameState)
    (player : Player) (cardId : Option String)
    (hfind : s.players.find? (fun q => q.id = player.id) = some player)
    (hpend : s.pendingInteraction = none) :
    cardMultiset (handlePlaySecret ctx s player cardId).state = cardMultiset s := by
  cases cardId with
  | none => rfl
  | some cid =>
      cases hrem : removeFirstById player.hand cid with
      | none => simp [handlePlaySecret, hrem]
      | some pr =>
          obtain ⟨card, rest⟩ := pr
          obtain ⟨-, hperm⟩ := removeFirst_spec hrem
          have hhand : ((player.hand : List Card) : Multiset Card)
              = ((card :: rest : List Card) : Multiset Card) := coe_perm hperm
          simp only [handlePlaySecret, hrem, endTurn]
          rw [cardMultiset_turnDriver ctx 3 false _ (by simpa using hpend)]
          refine cardMultiset_eq_of rfl rfl rfl rfl ?_
          refine updateFirst_flatMap_preserve hfind ?_
          simp only [playerCards, ← Multiset.coe_add]
          rw [hhand]
          have hsplit : ((card :: rest : List Card) : Multiset Card)
              = (([card] : List Card) : Multiset Card) + ((rest : List Card) : Multiset Card) := by
            simp [← Multiset.coe_add]
          rw [hsplit]
          abel

theorem cardMultiset_tradeOffContinue (ctx : RoomCtx) (s : GameState)
    (player : Player) (cardIds : List String) (ext : List Card × List Card)
    (hfind : s.players.find? (fun q => q.id = player.id) = some player)
    (hpend : s.pendingInteraction = none)
    (hperm : (ext.1 ++ ext.2).Perm player.hand) :
    cardMultiset (tradeOffContinue ctx s player cardIds ext).state = cardMultiset s := by
  have hhand : ((player.hand : List Card) : Multiset Card)
      = ((ext.1 : List Card) : Multiset Card) + ((ext.2 : List Card) : Multiset Card) := by
    rw [← coe_perm hperm]
    simp [← Multiset.coe_add]
  by_cases hlen : ext.1.length = 2
  · simp only [tradeOffContinue, hlen, if_true, endTurn]
    rw [cardMultiset_turnDriver ctx 3 false _ (by simpa using hpend)]
    refine cardMultiset_eq_of rfl rfl rfl rfl ?_
    refine updateFirst_flatMap_preserve hfind ?_
    simp only [playerCards, ← Multiset.coe_add]
    rw [hhand]
    abel
  · simp only [tradeOffContinue, hlen, if_false]
    refine cardMultiset_eq_of rfl rfl rfl rfl ?_
    refine updateFirst_flatMap_preserve hfind ?_
    simp only [playerCards, ← Multiset.coe_add]
    rw [hhand]
    abel

theorem cardMultiset_handleTradeOff (ctx : RoomCtx) (s : GameState)
    (player : Player) (cardIds : List String)
    (hfind : s.players.find? (fun q => q.id = player.id) = some player)
    (hpend : s.pendingInteraction = none) :
    cardMultiset (handleTradeOff ctx s player cardIds).state = cardMultiset s := by
  by_cases hlen : cardIds.length = 2
  · simp only [handleTradeOff, hlen, if_true]
    cases hv : validateCardOwnershipErr player cardIds with
    | some msg => rfl
    | none =>
        exact cardMultiset_tradeOffContinue ctx s player cardIds _ hfind hpend
          (extract_append_perm cardIds player.hand)
  · simp [handleTradeOff, hlen]

theorem cardMultiset_giftContinue (ctx : RoomCtx) (s : GameState)
    (player : Player) (opponentId : String) (ext : List Card × List Card)
    (hfind : s.players.find? (fun q => q.id = player.id) = some player)
    (hpend : s.pendingInteraction = none)
    (hperm : (ext.1 ++ ext.2).Perm player.hand) :
    cardMultiset (giftContinue ctx s player opponentId ext).state = cardMultiset s := by
  have hhand : ((player.hand : List Card) : Multiset Card)
      = ((ext.1 : List Card) : Multiset Card) + ((ext.2 : List Card) : Multiset Card) := by
    rw [← coe_perm hperm]
    simp [← Multiset.coe_add]
  by_cases hlen : ext.1.length = 3
  · simp only [giftContinue, hlen, if_true]
    rw [cardMultiset_unfold, cardMultiset_unfold]
    simp only [hpend, pendingCards]
    have hsub := updateFirst_flatMap_sub
      (fun _ =>
        { player with
            hand := ext.2,
            actionTokens := markTokenUsed player.actionTokens "gift" })
      ext.1 hfind
      (by simp only [playerCards, ← Multiset.coe_add]
          rw [hhand]
          abel)
    rw [← hsub]
    abel
  · simp only [giftContinue, hlen, if_false]
    refine cardMultiset_eq_of rfl rfl rfl rfl ?_
    refine updateFirst_flatMap_preserve hfind ?_
    simp only [playerCards, ← Multiset.coe_add]
    rw [hhand]
    abel

theorem cardMultiset_handleInitiateGift (ctx : RoomCtx) (s : GameState)
    (player : Player) (cardIds : List String)
    (hfind : s.players.find? (fun q => q.id = player.id) = some player)
    (hpend : s.pendingInteraction = none) :
    cardMultiset (handleInitiateGift ctx s player cardIds).state = cardMultiset s := by
  by_cases hlen : cardIds.length = 3
  · simp only [handleInitiateGift, hlen, if_true]
    cases hv : validateCardOwnershipErr player cardIds with
    | some msg => rfl
    | none =>
        cases hopp : getOpponentId ctx.players player.id with
        | none => rfl
        | some opponentId =>
            exact cardMultiset_giftContinue ctx s player opponentId _ hfind hpend
              (extract_append_perm cardIds player.hand)
  · simp [handleInitiateGift, hlen]

theorem cardMultiset_handleResolveGift (ctx : RoomCtx) (s : GameState)
    (playerId : String) (chosenCardId : Option String)
    (hWF : pendingWFb s = true) :
    cardMultiset (handleResolveGift ctx s playerId chosenCardId).state
      = cardMultiset s := by
  cases hpend : s.pendingInteraction with
  | none => simp [handleResolveGift, hpend]
  | some pi =>
      cases pi with
      | competitionSelection i t g => simp [handleResolveGift, hpend]
      | giftSelection initiatorId targetPlayerId offeredCards =>
          by_cases htgt : targetPlayerId = playerId
          · simp only [handleResolveGift, hpend, htgt, if_true]
            cases hfindc : offeredCards.find? (fun c => some c.id = chosenCardId) with
            | none => rfl
            | some chosenCard =>
                cases hpi : getPlayerState s initiatorId with
                | none => simp [hpi]
                | some qI =>
                    cases hpr : getPlayerState s playerId with
                    | none => simp [hpi, hpr]
                    | some qR =>
                        simp only [hpi, hpr]
                        have hnd : (offeredCards.map Card.id).Nodup := by
                          have := hWF
                          simp only [pendingWFb, hpend] at this
                          simpa using this
                        have hofferperm := find?_filter_perm hnd hfindc
                        have hfindR : s.players.find? (fun p => p.id = playerId)
                            = some qR := hpr
                        have hisI : (s.players.find?
                            (fun p => p.id = initiatorId)).isSome := by
                          rw [show s.players.find? (fun p => p.id = initiatorId)
                            = getPlayerState s initiatorId from rfl, hpi]
                          simp
                        have hisI2 := find?_updateFirst_isSome playerId initiatorId
                          (fun q =>
                            { q with playedCards := q.playedCards ++ [chosenCard] })
                          (fun p => rfl) hisI
                        obtain ⟨q2, hfind2⟩ := Option.isSome_iff_exists.mp hisI2
                        have h1 := updateFirst_flatMap_add
                          (fun q =>
                            { q with playedCards := q.playedCards ++ [chosenCard] })
                          [chosenCard] hfindR
                          (by simp only [playerCards, ← Multiset.coe_add]; abel)
                        have h2 := updateFirst_flatMap_add
                          (fun q =>
                            { q with
                                playedCards := q.playedCards ++
                                  offeredCards.filter
                                    (fun c => ¬ some c.id = chosenCardId) })
                          (offeredCards.filter (fun c => ¬ some c.id = chosenCardId))
                          hfind2
                          (by simp only [playerCards, ← Multiset.coe_add]; abel)
                        simp only [endTurn]
                        rw [cardMultiset_turnDriver ctx 3 false _ rfl]
                        rw [cardMultiset_unfold, cardMultiset_unfold]
                        simp only [hpend, pendingCards]
                        rw [h2, h1]
                        have hoff : ((offeredCards : List Card) : Multiset Card)
                            = (([chosenCard] : List Card) : Multiset Card)
                              + ((offeredCards.filter
                                  (fun c => ¬ some c.id = chosenCardId)
                                  : List Card) : Multiset Card) := by
                          rw [coe_perm hofferperm]
                          simp [← Multiset.coe_add]
                        rw [hoff]
                        simp only [Multiset.coe_nil]
                        abel
          · simp only [handleResolveGift, hpend]
            rw [if_neg htgt]

theorem ownership_none {p : Player} {ids : List String} :
    validateCardOwnershipErr p ids = none ↔
      ids.Nodup ∧ ∀ cid ∈ ids, ∃ c ∈ p.hand, c.id = cid := by
  constructor
  · intro h
    by_cases hnd : ids.Nodup
    · refine ⟨hnd, ?_⟩
      simp only [validateCardOwnershipErr, hnd, if_true] at h
      by_cases hall : (ids.all (fun cid => p.hand.any (fun c => c.id = cid))) = true
      · intro cid hcid
        have := (List.all_eq_true.mp hall) cid hcid
        simpa [List.any_eq_true] using this
      · simp [hall] at h
    · simp [validateCardOwnershipErr, hnd] at h
  · intro h
    obtain ⟨hnd, hall⟩ := h
    have hallb : (ids.all (fun cid => p.hand.any (fun c => c.id = cid))) = true := by
      apply List.all_eq_true.mpr
      intro cid hcid
      simpa [List.any_eq_true] using hall cid hcid
    simp [validateCardOwnershipErr, hnd, hallb]

theorem cardMultiset_handleInitiateCompetition (ctx : RoomCtx) (s : GameState)
    (player : Player) (groups : List (List String))
    (hfind : s.players.find? (fun q => q.id = player.id) = some player)
    (hpend : s.pendingInteraction = none) :
    cardMultiset (handleInitiateCompetition ctx s player groups).state
      = cardMultiset s := by
  by_cases hshape : groups.length = 2 ∧ (groups.all (fun g => g.length = 2)) = true
  · simp only [handleInitiateCompetition, hshape, true_and, and_self, if_true]
    cases hopp : getOpponentId ctx.players player.id with
    | none => rfl
    | some opponentId =>
        cases hv : validateCardOwnershipErr player groups.flatten with
        | some msg => rfl
        | none =>
            obtain ⟨hnd, hall⟩ := ownership_none.mp hv
            have hperm := extract_append_perm groups.flatten player.hand
            have hhand : ((player.hand : List Card) : Multiset Card)
                = (((extractCards player.hand groups.flatten).1 : List Card) : Multiset Card)
                  + (((extractCards player.hand groups.flatten).2 : List Card) : Multiset Card) := by
              rw [← coe_perm hperm]
              simp [← Multiset.coe_add]
            have hmap := extract_map_id groups.flatten player.hand hnd hall
            have hndext :
                ((extractCards player.hand groups.flatten).1.map Card.id).Nodup := by
              rw [hmap]; exact hnd
            have hrecon0 := find_reconstruct
              (extractCards player.hand groups.flatten).1 hndext
            rw [hmap] at hrecon0
            have hflat : (groups.map (fun g => g.filterMap
                (fun cid => (extractCards player.hand groups.flatten).1.find?
                  (fun c => c.id = cid)))).flatten
                = (extractCards player.hand groups.flatten).1 := by
              rw [filterMap_flatten]
              exact hrecon0
            simp only [competitionContinue]
            by_cases hlen4 : (extractCards player.hand groups.flatten).1.length = 4
            · simp only [hlen4, if_true]
              by_cases hg2 : ((groups.map (fun g => g.filterMap
                  (fun cid => (extractCards player.hand groups.flatten).1.find?
                    (fun c => c.id = cid)))).all (fun g => g.length = 2)) = true
              · simp only [hg2, if_true]
                rw [cardMultiset_unfold, cardMultiset_unfold]
                simp only [hpend, pendingCards]
                rw [hflat]
                have hsub := updateFirst_flatMap_sub
                  (fun _ =>
                    { player with
                        hand := (extractCards player.hand groups.flatten).2,
                        actionTokens :=
                          markTokenUsed player.actionTokens "competition" })
                  (extractCards player.hand groups.flatten).1 hfind
                  (by simp only [playerCards, ← Multiset.coe_add]
                      rw [hhand]
                      abel)
                rw [← hsub]
                abel
              · simp only [hg2, if_false]
                refine cardMultiset_eq_of rfl rfl rfl rfl ?_
                refine updateFirst_flatMap_preserve hfind ?_
                simp only [playerCards, ← Multiset.coe_add]
                rw [hhand]
                abel
            · simp only [hlen4, if_false]
              refine cardMultiset_eq_of rfl rfl rfl rfl ?_
              refine updateFirst_flatMap_preserve hfind ?_
              simp only [playerCards, ← Multiset.coe_add]
              rw [hhand]
              abel
  · simp only [handleInitiateCompetition]
    rw [if_neg hshape]

theorem cardMultiset_handleResolveCompetition (ctx : RoomCtx) (s : GameState)
    (playerId : String) (chosenGroupIndex : Nat)
    (hWF : pendingWFb s = true) :
    cardMultiset (handleResolveCompetition ctx s playerId chosenGroupIndex).state
      = cardMultiset s := by
  cases hpend : s.pendingInteraction with
  | none => simp [handleResolveCompetition, hpend]
  | some pi =>
      cases pi with
      | giftSelection i t o => simp [handleResolveCompetition, hpend]
      | competitionSelection initiatorId targetPlayerId pgroups =>
          by_cases htgt : targetPlayerId = playerId
          · simp only [handleResolveCompetition, hpend, htgt, if_true]
            have hlen : pgroups.length = 2 := by
              have := hWF
              simp only [pendingWFb, hpend] at this
              simpa using this
            obtain ⟨g0, g1, hpg⟩ := List.length_eq_two.mp hlen
            subst hpg
            cases hsel : ([g0, g1] : List (List Card)).get? chosenGroupIndex with
            | none => rfl
            | some selectedGroup =>
                cases hpi : getPlayerState s initiatorId with
                | none => simp [hpi]
                | some qI =>
                    cases hpr : getPlayerState s playerId with
                    | none => simp [hpi, hpr]
                    | some qR =>
                        simp only [hpi, hpr]
                        have hfindR : s.players.find? (fun p => p.id = playerId)
                            = some qR := hpr
                        have hisI : (s.players.find?
                            (fun p => p.id = initiatorId)).isSome := by
                          rw [show s.players.find? (fun p => p.id = initiatorId)
                            = getPlayerState s initiatorId from rfl, hpi]
                          simp
                        have hisI2 := find?_updateFirst_isSome playerId initiatorId
                          (fun q =>
                            { q with playedCards := q.playedCards ++ selectedGroup })
                          (fun p => rfl) hisI
                        obtain ⟨q2, hfind2⟩ := Option.isSome_iff_exists.mp hisI2
                        have h1 := updateFirst_flatMap_add
                          (fun q =>
                            { q with playedCards := q.playedCards ++ selectedGroup })
                          selectedGroup hfindR
                          (by simp only [playerCards, ← Multiset.coe_add]; abel)
                        have h2 := updateFirst_flatMap_add
                          (fun q =>
                            { q with playedCards := q.playedCards ++
                              (([g0, g1] : List (List Card)).get?
                                (if chosenGroupIndex = 0 then 1 else 0)).getD [] })
                          ((([g0, g1] : List (List Card)).get?
                            (if chosenGroupIndex = 0 then 1 else 0)).getD [])
                          hfind2
                          (by simp only [playerCards, ← Multiset.coe_add]; abel)
                        simp only [endTurn]
                        rw [cardMultiset_turnDriver ctx 3 false _ rfl]
                        rw [cardMultiset_unfold, cardMultiset_unfold]
                        simp only [hpend, pendingCards]
                        rw [h2, h1]
                        cases chosenGroupIndex with
                        | zero =>
                            have hg0 : selectedGroup = g0 := by
                              simpa using hsel.symm
                            subst hg0
                            simp only [if_pos rfl]
                            simp only [List.get?, Option.getD, List.flatten,
                              ← Multiset.coe_add, Multiset.coe_nil]
                            abel
                        | succ m =>
                            cases m with
                            | zero =>
                                have hg1 : selectedGroup = g1 := by
                                  simpa using hsel.symm
                                subst hg1
                                have hne : ¬ (1 : Nat) = 0 := by decide
                                simp only [if_neg hne]
                                simp only [List.get?, Option.getD, List.flatten,
                                  ← Multiset.coe_add, Multiset.coe_nil]
                                abel
                            | succ k =>
                                exfalso
                                have : ([g0, g1] : List (List Card)).get? (k + 2)
                                    = none := by
                                  simp [List.get?]
                                rw [this] at hsel
                                exact Option.noConfusion hsel
          · simp only [handleResolveCompetition, hpend]
            rw [if_neg htgt]

theorem cardMultiset_handleAction (ctx : RoomCtx) (s : GameState)
    (pid : String) (a : GameAction) (hWF : pendingWFb s = true) :
    cardMultiset (handleAction ctx s pid a).state = cardMultiset s := by
  by_cases hroom : pid ∈ ctx.players
  · simp only [handleAction, hroom, if_true]
    cases hfind : s.players.find? (fun q => q.id = pid) with
    | none => rfl
    | some player =>
        dsimp only
        have hpid : player.id = pid := by
          have := List.find?_some hfind
          simpa using this
        have hfind2 : s.players.find? (fun q => q.id = player.id) = some player := by
          rw [hpid]; exact hfind
        by_cases hg1 : s.pendingInteraction.isSome ∧ a.isResolve = false
        · rw [if_pos hg1]
        · rw [if_neg hg1]
          by_cases hg2 : s.pendingInteraction.isNone ∧ a.isResolve = true
          · rw [if_pos hg2]
          · rw [if_neg hg2]
            by_cases hg3 : ¬ s.phase = GamePhase.playing ∧ a.isResolve = false
            · rw [if_pos hg3]
            · rw [if_neg hg3]
              cases a with
              | playSecret cardId =>
                  dsimp only
                  have hpend : s.pendingInteraction = none := by
                    by_contra hne
                    exact hg1 ⟨Option.ne_none_iff_isSome.mp hne, rfl⟩
                  by_cases hcur : currentPlayerIs s pid = true
                  · rw [if_pos hcur]
                    by_cases htok : tokenAvailable player "secret" = true
                    · rw [if_pos htok]
                      exact cardMultiset_handlePlaySecret ctx s player cardId
                        hfind2 hpend
                    · rw [if_neg htok]
                  · rw [if_neg hcur]
              | playTradeOff cardIds =>
                  dsimp only
                  have hpend : s.pendingInteraction = none := by
                    by_contra hne
                    exact hg1 ⟨Option.ne_none_iff_isSome.mp hne, rfl⟩
                  by_cases hcur : currentPlayerIs s pid = true
                  · rw [if_pos hcur]
                    by_cases htok : tokenAvailable player "trade-off" = true
                    · rw [if_pos htok]
                      exact cardMultiset_handleTradeOff ctx s player cardIds
                        hfind2 hpend
                    · rw [if_neg htok]
                  · rw [if_neg hcur]
              | initiateGift cardIds =>
                  dsimp only
                  have hpend : s.pendingInteraction = none := by
                    by_contra hne
                    exact hg1 ⟨Option.ne_none_iff_isSome.mp hne, rfl⟩
                  by_cases hcur : currentPlayerIs s pid = true
                  · rw [if_pos hcur]
                    by_cases htok : tokenAvailable player "gift" = true
                    · rw [if_pos htok]
                      exact cardMultiset_handleInitiateGift ctx s player cardIds
                        hfind2 hpend
                    · rw [if_neg htok]
                  · rw [if_neg hcur]
              | resolveGift chosenCardId =>
                  dsimp only
                  exact cardMultiset_handleResolveGift ctx s pid chosenCardId hWF
              | initiateCompetition groups =>
                  dsimp only
                  have hpend : s.pendingInteraction = none := by
                    by_contra hne
                    exact hg1 ⟨Option.ne_none_iff_isSome.mp hne, rfl⟩
                  by_cases hcur : currentPlayerIs s pid = true
                  · rw [if_pos hcur]
                    by_cases htok : tokenAvailable player "competition" = true
                    · rw [if_pos htok]
                      exact cardMultiset_handleInitiateCompetition ctx s player
                        groups hfind2 hpend
                    · rw [if_neg htok]
                  · rw [if_neg hcur]
              | resolveCompetition idx =>
                  dsimp only
                  exact cardMultiset_handleResolveCompetition ctx s pid idx hWF
  · simp [handleAction, hroom]

theorem dealOnce_multiset :
    ∀ (ps : List Player) (deck : List Card),
      (((dealOnce ps deck).1.flatMap playerCards : List Card) : Multiset Card)
          + (((dealOnce ps deck).2 : List Card) : Multiset Card)
        = ((ps.flatMap playerCards : List Card) : Multiset Card)
          + ((deck : List Card) : Multiset Card) := by
  intro ps
  induction ps with
  | nil => intro deck; simp [dealOnce]
  | cons p rest ih =>
      intro deck
      cases deck with
      | nil =>
          have h := ih []
          simp only [dealOnce, List.flatMap_cons, ← Multiset.coe_add]
          calc ((playerCards p : List Card) : Multiset Card)
                + (((dealOnce rest []).1.flatMap playerCards : List Card) : Multiset Card)
                + (((dealOnce rest []).2 : List Card) : Multiset Card)
              = ((playerCards p : List Card) : Multiset Card)
                + ((((dealOnce rest []).1.flatMap playerCards : List Card) : Multiset Card)
                  + (((dealOnce rest []).2 : List Card) : Multiset Card)) := by abel
            _ = ((playerCards p : List Card) : Multiset Card)
                + (((rest.flatMap playerCards : List Card) : Multiset Card)
                  + (([] : List Card) : Multiset Card)) := by rw [h]
            _ = ((playerCards p : List Card) : Multiset Card)
                + ((rest.flatMap playerCards : List Card) : Multiset Card)
                + (([] : List Card) : Multiset Card) := by abel
      | cons c dk =>
          have h := ih dk
          have hp2 : ((playerCards { p with hand := p.hand ++ [c] }
                : List Card) : Multiset Card)
              = ((playerCards p : List Card) : Multiset Card)
                + (([c] : List Card) : Multiset Card) := by
            simp only [playerCards, ← Multiset.coe_add]
            abel
          simp only [dealOnce, List.flatMap_cons, ← Multiset.coe_add]
          rw [hp2]
          have hck : ((c :: dk : List Card) : Multiset Card)
              = (([c] : List Card) : Multiset Card)
                + ((dk : List Card) : Multiset Card) := by
            simp [← Multiset.coe_add]
          rw [hck]
          calc ((playerCards p : List Card) : Multiset Card)
                + (([c] : List Card) : Multiset Card)
                + (((dealOnce rest dk).1.flatMap playerCards : List Card) : Multiset Card)
                + (((dealOnce rest dk).2 : List Card) : Multiset Card)
              = ((playerCards p : List Card) : Multiset Card)
                + (([c] : List Card) : Multiset Card)
                + ((((dealOnce rest dk).1.flatMap playerCards : List Card) : Multiset Card)
                  + (((dealOnce rest dk).2 : List Card) : Multiset Card)) := by abel
            _ = ((playerCards p : List Card) : Multiset Card)
                + (([c] : List Card) : Multiset Card)
                + (((rest.flatMap playerCards : List Card) : Multiset Card)
                  + ((dk : List Card) : Multiset Card)) := by rw [h]
            _ = ((playerCards p : List Card) : Multiset Card)
                + ((rest.flatMap playerCards : List Card) : Multiset Card)
                + ((([c] : List Card) : Multiset Card)
                  + ((dk : List Card) : Multiset Card)) := by abel

theorem dealRounds_multiset :
    ∀ (n : Nat) (ps : List Player) (deck : List Card),
      (((dealRounds n ps deck).1.flatMap playerCards : List Card) : Multiset Card)
          + (((dealRounds n ps deck).2 : List Card) : Multiset Card)
        = ((ps.flatMap playerCards : List Card) : Multiset Card)
          + ((deck : List Card) : Multiset Card) := by
  intro n
  induction n with
  | zero => intro ps deck; simp [dealRounds]
  | succ m ih =>
      intro ps deck
      simp only [dealRounds]
      rw [ih (dealOnce ps deck).1 (dealOnce ps deck).2]
      exact dealOnce_multiset ps deck

theorem createPlayers_flatMap (ids : List String) :
    (ids.map createPlayer).flatMap playerCards = [] := by
  induction ids with
  | nil => rfl
  | cons i rest ih => simp [createPlayer, playerCards, ih]

theorem cardMultiset_prepareRoundState (roomId : String) (hostId : Option String)
    (geishaSet : String) (playerIds : List String) (geishas : List Geisha)
    (shuffled : List Card) (roundNumber : Nat) (openOrderDecision : Bool)
    (st : GameState)
    (hsome : prepareRoundState roomId hostId geishaSet playerIds geishas
      shuffled roundNumber openOrderDecision = some st)
    (hshuffle : shuffled.Perm (buildCardsForGeishas geishas)) :
    cardMultiset st = ((buildCardsForGeishas geishas : List Card) : Multiset Card) := by
  by_cases hlen : playerIds.length < 2
  · simp [prepareRoundState, hlen] at hsome
  · simp only [prepareRoundState, hlen, if_false] at hsome
    have hst := hsome.symm
    injection hst with hst2
    subst hst2
    rw [cardMultiset_unfold]
    simp only [pendingCards]
    have hdeal := dealRounds_multiset 6 (playerIds.map createPlayer) shuffled.dropLast
    rw [createPlayers_flatMap] at hdeal
    have hsplit : ((shuffled.dropLast : List Card) : Multiset Card)
        + ((shuffled.getLast?.toList : List Card) : Multiset Card)
        = ((shuffled : List Card) : Multiset Card) := by
      calc ((shuffled.dropLast : List Card) : Multiset Card)
            + ((shuffled.getLast?.toList : List Card) : Multiset Card)
          = ((shuffled.dropLast ++ shuffled.getLast?.toList : List Card)
              : Multiset Card) := by simp [← Multiset.coe_add]
        _ = ((shuffled : List Card) : Multiset Card) := by
              rw [dropLast_append_getLastList shuffled]
    calc ((dealRounds 6 (playerIds.map createPlayer) shuffled.dropLast).2
            : Multiset Card)
          + (([] : List Card) : Multiset Card)
          + ((Option.toList shuffled.getLast? : List Card) : Multiset Card)
          + (((dealRounds 6 (playerIds.map createPlayer)
              shuffled.dropLast).1.flatMap playerCards : List Card) : Multiset Card)
          + (([] : List Card) : Multiset Card)
        = (((dealRounds 6 (playerIds.map createPlayer)
              shuffled.dropLast).1.flatMap playerCards : List Card) : Multiset Card)
          + ((dealRounds 6 (playerIds.map createPlayer) shuffled.dropLast).2
            : Multiset Card)
          + ((Option.toList shuffled.getLast? : List Card) : Multiset Card) := by
            abel
      _ = (([] : List Card) : Multiset Card)
          + ((shuffled.dropLast : List Card) : Multiset Card)
          + ((Option.toList shuffled.getLast? : List Card) : Multiset Card) := by
            rw [hdeal]
      _ = ((shuffled.dropLast : List Card) : Multiset Card)
          + ((shuffled.getLast?.toList : List Card) : Multiset Card) := by
            simp
      _ = ((shuffled : List Card) : Multiset Card) := hsplit
      _ = ((buildCardsForGeishas geishas : List Card) : Multiset Card) :=
            coe_perm hshuffle

/-- Fallback empty game state (used only to strip the `Option` from
`prepareRoundState` on inputs where it is known to succeed). -/
def emptyGameState : GameState :=
  { gameId := "", hostId := none, players := [], geishas := [],
    geishaSet := "default", currentPlayer := 0, phase := GamePhase.waiting,
    round := 1, winner := none, drawPile := [], discardPile := [],
    removedCard := none, pendingInteraction := none, lastAction := none }

/-- Example geisha catalog (default set). -/
def exGeishas : List Geisha := createBaseGeishas "default"

/-- Example deck: the built cards with the identity shuffle. -/
def exDeck : List Card := buildCardsForGeishas exGeishas

/-- Example room context: two humans, no NPC. -/
def exCtx : RoomCtx :=
  { players := ["alice", "bob"], npcId := none, npcDifficulty := "easy" }

/-- Example round state straight out of `prepareRoundState` for the two
players, round 1, no order decision (phase playing). -/
def exState : GameState :=
  (prepareRoundState "ROOM01" (some "alice") "default" ["alice", "bob"]
    exGeishas exDeck 1 false).getD emptyGameState

/-- Example gift action: three cards of alice's dealt hand. -/
def exGiftAction : GameAction :=
  GameAction.initiateGift ["card-1-0", "card-2-0", "card-3-0"]

/-- The room state right after alice's INITIATE_GIFT succeeded. -/
def exAfterGift : GameState :=
  (handleAction exCtx exState "alice" exGiftAction).state

/-- Claim C1 (counterexample): right after a successful INITIATE_GIFT the
multiset of card ids in drawPile, discardPile, the removedCard and the
players' piles — the piles the claim lists — is NOT the 21 cards built at
round start: the three offered cards now live only inside
`pendingInteraction`, so only 18 of the 21 cards remain in the listed
piles while the pending interaction exists. -/
theorem card_conservation_counterexample :
    exAfterGift.pendingInteraction.isSome = true ∧
    (listedCards exState).length = 21 ∧
    (listedCards exAfterGift).length = 18 ∧
    ¬ ((listedCards exAfterGift : Multiset Card)
        = (listedCards exState : Multiset Card)) := by
  refine ⟨by decide, by decide, by decide, ?_⟩
  intro h
  have hc := congrArg Multiset.card h
  simp only [Multiset.coe_card] at hc
  have h18 : (listedCards exAfterGift).length = 18 := by decide
  have h21 : (listedCards exState).length = 21 := by decide
  rw [h18, h21] at hc
  exact absurd hc (by decide)

/-- Claim C1 (amended): after every completed mutation of a room's
gameState the multiset of cards in drawPile, discardPile, the
removedCard, the cards held by a pending gift or competition interaction,
and every player's hand, playedCards, secretCards and discardedCards is
exactly the deck built at round start (21 cards for the standard charm
distribution), and no card id appears twice.  Round setup produces
exactly the built deck; `handleAction` (all six actions, successful or
rejected) preserves the multiset whenever the pending interaction has the
shape the engine creates; the begin-turn draw, the turn advance and round
resolution preserve it as well (a turn only ever begins with no pending
interaction); and any multiset-preserving step preserves id-uniqueness. -/
theorem card_conservation_amended :
    (∀ (roomId : String) (hostId : Option String) (geishaSet : String)
        (playerIds : List String) (geishas : List Geisha)
        (shuffled : List Card) (roundNumber : Nat) (openOrderDecision : Bool)
        (st : GameState),
      prepareRoundState roomId hostId geishaSet playerIds geishas shuffled
          roundNumber openOrderDecision = some st →
      shuffled.Perm (buildCardsForGeishas geishas) →
      cardMultiset st
        = ((buildCardsForGeishas geishas : List Card) : Multiset Card))
    ∧ (buildCardsForGeishas (createBaseGeishas "default")).length = 21
    ∧ ((buildCardsForGeishas (createBaseGeishas "default")).map Card.id).Nodup
    ∧ (∀ (ctx : RoomCtx) (s : GameState) (pid : String) (a : GameAction),
        pendingWFb s = true →
        cardMultiset (handleAction ctx s pid a).state = cardMultiset s)
    ∧ (∀ (ctx : RoomCtx) (s : GameState), s.pendingInteraction = none →
        cardMultiset (beginTurnForCurrentPlayer ctx s).state = cardMultiset s)
    ∧ (∀ (ctx : RoomCtx) (s : GameState), s.pendingInteraction = none →
        cardMultiset (endTurn ctx s).state = cardMultiset s)
    ∧ (∀ s : GameState, cardMultiset (resolveRound s).state = cardMultiset s)
    ∧ (∀ s s2 : GameState, cardMultiset s2 = cardMultiset s →
        ((stateCards s).map Card.id).Nodup →
        ((stateCards s2).map Card.id).Nodup) := by
  refine ⟨?_, by decide, by decide, ?_, ?_, ?_, ?_, ?_⟩
  · intro roomId hostId geishaSet playerIds geishas shuffled rnd opn st h1 h2
    exact cardMultiset_prepareRoundState roomId hostId geishaSet playerIds
      geishas shuffled rnd opn st h1 h2
  · intro ctx s pid a hWF
    exact cardMultiset_handleAction ctx s pid a hWF
  · intro ctx s hpend
    exact cardMultiset_turnDriver ctx 4 true s hpend
  · intro ctx s hpend
    exact cardMultiset_turnDriver ctx 3 false s hpend
  · intro s
    exact cardMultiset_resolveRound s
  · intro s s2 heq hnd
    have hperm : (stateCards s2).Perm (stateCards s) :=
      Multiset.coe_eq_coe.mp heq
    exact ((hperm.map Card.id).nodup_iff).mpr hnd

/-- Claim C1 (witness): the amended conservation theorem applied to the
concrete example room and alice's INITIATE_GIFT. -/
theorem card_conservation_amended_witness :
    pendingWFb exState = true ∧
    cardMultiset (handleAction exCtx exState "alice" exGiftAction).state
      = cardMultiset exState :=
  ⟨by decide,
    card_conservation_amended.2.2.2.1 exCtx exState "alice" exGiftAction
      (by decide)⟩

/-- Winner determination as the specification words it: if either
player's charm reaches 11 the strictly greater charm wins; only otherwise,
if either player's tokens reach 4 the strictly greater tokens win; when
neither threshold is reached or the compared values tie exactly there is
no winner. -/
def specDetermineWinner (pA pB : Player) : Option String :=
  if 11 ≤ pA.score.charm ∨ 11 ≤ pB.score.charm then
    if pB.score.charm < pA.score.charm then some pA.id
    else if pA.score.charm < pB.score.charm then some pB.id
    else none
  else if 4 ≤ pA.score.tokens ∨ 4 ≤ pB.score.tokens then
    if pB.score.tokens < pA.score.tokens then some pA.id
    else if pA.score.tokens < pB.score.tokens then some pB.id
    else none
  else none

/-- Claim C3: for every post-resolution pair of player scores the engine's
`determineWinner` decides exactly as the specification describes — charm
threshold 11 first with strictly-greater charm winning (exact tie: no
winner, the token threshold is not consulted), otherwise token threshold
4 with strictly-greater tokens winning, otherwise no winner and the game
continues. -/
theorem determineWinner_matches_spec (s : GameState) (pA pB : Player)
    (h : s.players = [pA, pB]) :
    determineWinner s = specDetermineWinner pA pB := by
  simp only [determineWinner, specDetermineWinner, h]

/-- Sample resolved player used by the witnesses. -/
def wPlayerA : Player :=
  { createPlayer "alice" with score := { charm := 11, tokens := 3 } }

/-- Sample resolved player used by the witnesses. -/
def wPlayerB : Player :=
  { createPlayer "bob" with score := { charm := 4, tokens := 4 } }

/-- Sample resolved state used by the witnesses. -/
def wScoredState : GameState :=
  { emptyGameState with players := [wPlayerA, wPlayerB] }

/-- Claim C3 (witness): the theorem applied to a concrete state whose
first player crossed the charm threshold while the second crossed the
token threshold; charm dominates and alice wins. -/
theorem determineWinner_matches_spec_witness :
    wScoredState.players = [wPlayerA, wPlayerB] ∧
    determineWinner wScoredState = specDetermineWinner wPlayerA wPlayerB ∧
    determineWinner wScoredState = some "alice" :=
  ⟨rfl, determineWinner_matches_spec wScoredState wPlayerA wPlayerB rfl,
    by decide⟩

/-- Claim C10: the draw helper returns `null` exactly on an empty draw
pile and otherwise moves exactly the first card of the pile to the back
of the player's hand; when a turn begins for a player who still has an
unused token but the pile is empty, no card is drawn, no CARD_DRAWN and
no ERROR frame is emitted, and the player's hand (indeed the whole player
list) is unchanged — the turn simply enters the playing phase. -/
theorem drawCard_empty_pile_safe :
    (∀ (pile : List Card) (p : Player),
        (drawCardForPlayer pile p).2.2 = none ↔ pile = [])
    ∧ (∀ p : Player, drawCardForPlayer [] p = ([], p, none))
    ∧ (∀ (c : Card) (rest : List Card) (p : Player),
        drawCardForPlayer (c :: rest) p
          = (rest, { p with hand := p.hand ++ [c] }, some c))
    ∧ (∀ (ctx : RoomCtx) (s : GameState) (p : Player),
        s.players.get? s.currentPlayer = some p →
        ¬ (p.actionTokens.all (fun t => t.used)) = true →
        s.drawPile = [] →
        (beginTurnForCurrentPlayer ctx s).state
            = { s with phase := GamePhase.playing,
                       pendingInteraction := none, lastAction := none }
          ∧ (beginTurnForCurrentPlayer ctx s).events
              = [ServerEvent.stateBroadcast]) := by
  refine ⟨?_, ?_, ?_, ?_⟩
  · intro pile p
    cases pile with
    | nil => simp [drawCardForPlayer]
    | cons c rest => simp [drawCardForPlayer]
  · intro p; rfl
  · intro c rest p; rfl
  · intro ctx s p hget hall hpile
    have hsetp := set_get_self s.players s.currentPlayer p hget
    constructor
    · simp only [beginTurnForCurrentPlayer, turnDriver, hget]
      rw [if_neg hall]
      simp only [drawCardForPlayer, hpile, hsetp]
    · simp only [beginTurnForCurrentPlayer, turnDriver, hget]
      rw [if_neg hall]
      simp only [drawCardForPlayer, hpile]
      rfl

/-- Claim C10 (witness): the empty-pile begin-turn conclusion at a
concrete state (the example round state with its draw pile emptied). -/
theorem drawCard_empty_pile_safe_witness :
    (exState.players.get? 0).isSome = true ∧
    ({ exState with drawPile := [] } : GameState).drawPile = [] ∧
    (beginTurnForCurrentPlayer exCtx { exState with drawPile := [] }).events
      = [ServerEvent.stateBroadcast] := by
  refine ⟨by decide, rfl, ?_⟩
  have hget : ({ exState with drawPile := [] } : GameState).players.get?
      ({ exState with drawPile := [] } : GameState).currentPlayer
      = some ((exState.players.get? 0).getD (createPlayer "alice")) := by
    decide
  exact (drawCard_empty_pile_safe.2.2.2 exCtx { exState with drawPile := [] }
    ((exState.players.get? 0).getD (createPlayer "alice")) hget
    (by decide) rfl).2

theorem createMaskedCards_length (n : Nat) (pfx : String) :
    (createMaskedCards n pfx).length = n := by
  simp [createMaskedCards]

theorem createMaskedCards_mem {c : Card} {n : Nat} {pfx : String}
    (h : c ∈ createMaskedCards n pfx) : c.geishaId = 0 ∧ c.type = "hidden" := by
  simp only [createMaskedCards, List.mem_map] at h
  obtain ⟨j, -, hj⟩ := h
  subst hj
  exact ⟨rfl, rfl⟩

/-- Claim C5: the sanitized projection keeps the viewer's own seat
unchanged; every other seat has its hand replaced by opaque placeholder
cards of equal length, its secretCards emptied (not even the count is
revealed), and its discardedCards replaced by equal-length placeholders;
the draw pile is emptied and the removed card stripped.  The projection
is a pure function `buildClientGameState : GameState → String →
GameState` of the state and the viewer id, hence deterministic. -/
theorem buildClientGameState_masks (s : GameState) (viewerId : String)
    (i : Nat) (p : Player) (hget : s.players.get? i = some p) :
    (buildClientGameState s viewerId).drawPile = []
    ∧ (buildClientGameState s viewerId).removedCard = none
    ∧ (buildClientGameState s viewerId).players.length = s.players.length
    ∧ ∃ q, (buildClientGameState s viewerId).players.get? i = some q
        ∧ (p.id = viewerId → q = p)
        ∧ (¬ p.id = viewerId →
            q.id = p.id
            ∧ q.hand.length = p.hand.length
            ∧ (∀ c ∈ q.hand, c.geishaId = 0 ∧ c.type = "hidden")
            ∧ q.secretCards = []
            ∧ q.discardedCards.length = p.discardedCards.length
            ∧ (∀ c ∈ q.discardedCards, c.geishaId = 0 ∧ c.type = "hidden")) := by
  refine ⟨rfl, rfl, by simp [buildClientGameState], ?_⟩
  by_cases hv : p.id = viewerId
  · refine ⟨p, ?_, fun _ => rfl, fun hnv => absurd hv hnv⟩
    simp only [buildClientGameState]
    rw [List.get?_eq_getElem?, List.getElem?_map]
    rw [show s.players[i]? = some p from by simpa using hget]
    simp [hv]
  · refine ⟨{ p with
        hand := createMaskedCards p.hand.length (p.id ++ "-hand"),
        secretCards := [],
        discardedCards :=
          createMaskedCards p.discardedCards.length (p.id ++ "-discard") },
      ?_, fun hpv => absurd hpv hv, ?_⟩
    · simp only [buildClientGameState]
      rw [List.get?_eq_getElem?, List.getElem?_map]
      rw [show s.players[i]? = some p from by simpa using hget]
      simp [hv]
    · intro _
      refine ⟨rfl, createMaskedCards_length _ _, ?_, rfl,
        createMaskedCards_length _ _, ?_⟩
      · intro c hc
        exact createMaskedCards_mem hc
      · intro c hc
        exact createMaskedCards_mem hc

/-- Bob's seat in the example round state (a non-viewer seat for alice's
projection). -/
def exBobSeat : Player := (exState.players.get? 1).getD (createPlayer "bob")

/-- Claim C5 (witness): the masking theorem applied to alice's view of
bob's seat in the concrete example state. -/
theorem buildClientGameState_masks_witness :
    exState.players.get? 1 = some exBobSeat ∧
    (buildClientGameState exState "alice").drawPile = [] ∧
    (∃ q, (buildClientGameState exState "alice").players.get? 1 = some q
        ∧ (exBobSeat.id = "alice" → q = exBobSeat)
        ∧ (¬ exBobSeat.id = "alice" →
            q.id = exBobSeat.id
            ∧ q.hand.length = exBobSeat.hand.length
            ∧ (∀ c ∈ q.hand, c.geishaId = 0 ∧ c.type = "hidden")
            ∧ q.secretCards = []
            ∧ q.discardedCards.length = exBobSeat.discardedCards.length
            ∧ (∀ c ∈ q.discardedCards, c.geishaId = 0 ∧ c.type = "hidden"))) := by
  have hget : exState.players.get? 1 = some exBobSeat := by decide
  have h := buildClientGameState_masks exState "alice" 1 exBobSeat hget
  exact ⟨hget, h.1, h.2.2.2⟩

/-- Card utility as the specification words it: overtake or
tie-to-overtake (myCount+1 > oppCount and myCount ≤ oppCount) is worth
4×charm, tying (myCount+1 = oppCount) is worth 2×charm, anything else the
bare charm. -/
def specCardUtility (e : SnapEntry) (isNpc : Bool) : Nat :=
  let myCount := if isNpc then e.npc else e.opp
  let oppCount := if isNpc then e.opp else e.npc
  if myCount + 1 > oppCount ∧ myCount ≤ oppCount then e.charm * 4
  else if myCount + 1 = oppCount then e.charm * 2
  else e.charm

theorem insertDesc_ne_nil (key : Card → Nat) (c : Card) :
    ∀ l : List Card, insertDescBy key c l ≠ [] := by
  intro l
  cases l with
  | nil => simp [insertDescBy]
  | cons x xs =>
      simp only [insertDescBy]
      split
      · simp
      · simp

theorem sortDesc_ne_nil (key : Card → Nat) :
    ∀ l : List Card, l ≠ [] → sortDescBy key l ≠ [] := by
  intro l h
  cases l with
  | nil => exact absurd rfl h
  | cons x xs => exact insertDesc_ne_nil key x (sortDescBy key xs)

theorem sortDesc_head_max (key : Card → Nat) :
    ∀ (l : List Card) (c : Card), (sortDescBy key l).head? = some c →
      c ∈ l ∧ ∀ x ∈ l, key x ≤ key c := by
  intro l
  induction l with
  | nil => intro c h; simp [sortDescBy] at h
  | cons x xs ih =>
      intro c h
      simp only [sortDescBy] at h
      cases hs : sortDescBy key xs with
      | nil =>
          rw [hs] at h
          simp only [insertDescBy, List.head?] at h
          have hc : c = x := by injection h with h2; exact h2.symm
          rw [hc]
          have hxs : xs = [] := by
            by_contra hne
            exact sortDesc_ne_nil key xs hne hs
          subst hxs
          exact ⟨List.mem_cons_self x [], by
            intro y hy
            rcases List.mem_cons.mp hy with h1 | h1
            · subst h1; exact le_refl _
            · simp at h1⟩
      | cons d rest =>
          obtain ⟨hdmem, hdmax⟩ := ih d (by rw [hs]; rfl)
          rw [hs] at h
          simp only [insertDescBy] at h
          by_cases hcmp : key d < key x
          · rw [if_pos hcmp] at h
            have hc : c = x := by
              simp only [List.head?] at h
              injection h with h2
              exact h2.symm
            rw [hc]
            refine ⟨List.mem_cons_self x xs, ?_⟩
            intro y hy
            rcases List.mem_cons.mp hy with h1 | h1
            · subst h1; exact le_refl _
            · exact le_of_lt (lt_of_le_of_lt (hdmax y h1) hcmp)
          · rw [if_neg hcmp] at h
            have hc : c = d := by
              simp only [List.head?] at h
              injection h with h2
              exact h2.symm
            rw [hc]
            refine ⟨List.mem_cons_of_mem x hdmem, ?_⟩
            intro y hy
            rcases List.mem_cons.mp hy with h1 | h1
            · subst h1; exact not_lt.mp hcmp
            · exact hdmax y h1

/-- Claim C9: (a) the AI's card utility for a geisha present in the
snapshot is exactly the specification's formula — 4×charm when
myCount+1 > oppCount and myCount ≤ oppCount, 2×charm when
myCount+1 = oppCount, and charm otherwise (with the my/opp sides chosen
by which player is evaluated); (b) for an NPC at any difficulty other
than easy that is the target of a gift (both player states present), the
card chosen among the offered cards is one of them and has maximal
utility by that definition. -/
theorem npc_gift_utility_maximal :
    (∀ (snapshot : List (Nat × SnapEntry)) (gid : Nat) (e : SnapEntry)
        (isNpc : Bool), snapshotGet snapshot gid = some e →
        getCardUtility snapshot gid isNpc = specCardUtility e isNpc)
    ∧ (∀ (ctx : RoomCtx) (s : GameState) (cards : List Card)
        (randPick : List Card → Option Card) (npcId : String)
        (npcPlayer opponent : Player),
        ¬ ctx.npcDifficulty = "easy" →
        ¬ cards = [] →
        ctx.npcId = some npcId →
        getPlayerState s npcId = some npcPlayer →
        (getOpponentId ctx.players npcId).bind (getPlayerState s)
          = some opponent →
        ∃ c, pickNpcGiftCard ctx s cards randPick = some c ∧ c ∈ cards ∧
          ∀ c2 ∈ cards,
            getCardUtility (buildGeishaCountSnapshot s.geishas npcPlayer opponent)
              c2.geishaId true
              ≤ getCardUtility
                  (buildGeishaCountSnapshot s.geishas npcPlayer opponent)
                  c.geishaId true) := by
  constructor
  · intro snapshot gid e isNpc h
    simp only [getCardUtility, h, specCardUtility]
  · intro ctx s cards randPick npcId npcPlayer opponent hdiff hne hnpc hps hopp
    have hnotempty : ¬ (cards.isEmpty = true) := by
      simpa [List.isEmpty_iff] using hne
    have hsortne := sortDesc_ne_nil
      (fun c => getCardUtility
        (buildGeishaCountSnapshot s.geishas npcPlayer opponent) c.geishaId true)
      cards hne
    cases hhead : (sortDescBy
        (fun c => getCardUtility
          (buildGeishaCountSnapshot s.geishas npcPlayer opponent)
          c.geishaId true) cards).head? with
    | none =>
        exfalso
        apply hsortne
        exact List.head?_eq_none_iff.mp hhead
    | some c =>
        obtain ⟨hmem, hmax⟩ := sortDesc_head_max _ cards c hhead
        refine ⟨c, ?_, hmem, hmax⟩
        simp only [pickNpcGiftCard]
        rw [if_neg hnotempty, if_neg hdiff, hnpc]
        simp only [hps, hopp]
        exact hhead

/-- NPC room context used by the C9 witness: bob is a hard NPC. -/
def wNpcCtx : RoomCtx :=
  { players := ["alice", "bob"], npcId := some "bob", npcDifficulty := "hard" }

/-- Bob's state in the example round (fetched by id). -/
def wNpcPlayer : Player := (getPlayerState exState "bob").getD (createPlayer "bob")

/-- Alice's state in the example round (bob's opponent). -/
def wNpcOpponent : Player :=
  (getPlayerState exState "alice").getD (createPlayer "alice")

/-- Three cards offered to the NPC in the C9 witness. -/
def wOfferedCards : List Card :=
  [{ id := "w-1", geishaId := 1, type := "geisha-1" },
   { id := "w-7", geishaId := 7, type := "geisha-7" },
   { id := "w-4", geishaId := 4, type := "geisha-4" }]

/-- Claim C9 (witness): the maximality theorem applied to the concrete
NPC room, state and offered cards. -/
theorem npc_gift_utility_maximal_witness :
    (¬ wNpcCtx.npcDifficulty = "easy") ∧
    (∃ c, pickNpcGiftCard wNpcCtx exState wOfferedCards (fun _ => none) = some c
      ∧ c ∈ wOfferedCards
      ∧ ∀ c2 ∈ wOfferedCards,
          getCardUtility
            (buildGeishaCountSnapshot exState.geishas wNpcPlayer wNpcOpponent)
            c2.geishaId true
            ≤ getCardUtility
                (buildGeishaCountSnapshot exState.geishas wNpcPlayer wNpcOpponent)
                c.geishaId true) :=
  ⟨by decide,
    npc_gift_utility_maximal.2 wNpcCtx exState wOfferedCards (fun _ => none)
      "bob" wNpcPlayer wNpcOpponent (by decide) (by decide) (by decide)
      (by decide) (by decide)⟩

theorem revealSecrets_id (p : Player) : (revealSecrets p).id = p.id := by
  by_cases h : p.secretCards.isEmpty
  · simp [revealSecrets, h]
  · simp [revealSecrets, h]

theorem revealSecrets_played (p : Player) :
    (revealSecrets p).playedCards = p.playedCards ++ p.secretCards := by
  by_cases h : p.secretCards.isEmpty
  · have h2 : p.secretCards = [] := by simpa using h
    simp [revealSecrets, h, h2]
  · simp [revealSecrets, h]

theorem revealSecrets_secret (p : Player) : (revealSecrets p).secretCards = [] := by
  by_cases h : p.secretCards.isEmpty
  · have h2 : p.secretCards = [] := by simpa using h
    simp [revealSecrets, h, h2]
  · simp [revealSecrets, h]

theorem countMerged_eq (p : Player) (gid : Nat) :
    countCardsForGeisha (revealSecrets p) gid
      = ((p.playedCards ++ p.secretCards).filter
          (fun c => c.geishaId = gid)).length := by
  simp only [countCardsForGeisha, revealSecrets_played]

/-- Control update for one geisha as the specification words it: counts
are taken over `playedCards` after the secret cards were revealed into
them (equivalently over playedCards ++ secretCards of the pre-resolution
seats); strict majority moves `controlledBy`, a tie keeps its previous
value. -/
def specControlUpdate (p0 p1 : Player) (g : Geisha) : Geisha :=
  let c0 := ((p0.playedCards ++ p0.secretCards).filter
    (fun c => c.geishaId = g.id)).length
  let c1 := ((p1.playedCards ++ p1.secretCards).filter
    (fun c => c.geishaId = g.id)).length
  if c0 > c1 then { g with controlledBy := some p0.id }
  else if c1 > c0 then { g with controlledBy := some p1.id }
  else g

theorem updateGeishaControl_reveal (p0 p1 : Player) (g : Geisha) :
    updateGeishaControl (revealSecrets p0) (revealSecrets p1) g
      = specControlUpdate p0 p1 g := by
  simp only [updateGeishaControl, specControlUpdate, countMerged_eq,
    revealSecrets_id]

/-- Claim C4: during round resolution each player's secretCards are moved
into playedCards; then, for every geisha, strict majority of the merged
played counts moves `controlledBy` while a tie keeps its previous value;
afterwards each player's tokens equal the number of geishas they control
and their charm the sum of those geishas' charm points. -/
theorem resolveRound_control_and_scores (s : GameState) (p0 p1 : Player)
    (h : s.players = [p0, p1]) :
    (resolveRound s).state.geishas = s.geishas.map (specControlUpdate p0 p1)
    ∧ (resolveRound s).state.players.map (fun q => q.playedCards)
        = [p0.playedCards ++ p0.secretCards, p1.playedCards ++ p1.secretCards]
    ∧ (resolveRound s).state.players.map (fun q => q.secretCards) = [[], []]
    ∧ ∀ q ∈ (resolveRound s).state.players,
        q.score.tokens = ((resolveRound s).state.geishas.filter
          (fun g => g.controlledBy = some q.id)).length
        ∧ q.score.charm = (((resolveRound s).state.geishas.filter
            (fun g => g.controlledBy = some q.id)).map
              (fun g => g.charmPoints)).sum := by
  simp only [resolveRound, h, List.map_cons, List.map_nil, updatePlayerScores]
  split
  · refine ⟨List.map_congr_left (fun g _ => updateGeishaControl_reveal p0 p1 g),
      ?_, ?_, ?_⟩
    · simp [scoreForPlayer, revealSecrets_played]
    · simp [scoreForPlayer, revealSecrets_secret]
    · intro q hq
      simp only [List.map_cons, List.map_nil, List.mem_cons,
        List.not_mem_nil, or_false] at hq
      rcases hq with hq | hq
      · subst hq
        exact ⟨rfl, rfl⟩
      · subst hq
        exact ⟨rfl, rfl⟩
  · refine ⟨List.map_congr_left (fun g _ => updateGeishaControl_reveal p0 p1 g),
      ?_, ?_, ?_⟩
    · simp [scoreForPlayer, revealSecrets_played]
    · simp [scoreForPlayer, revealSecrets_secret]
    · intro q hq
      simp only [List.map_cons, List.map_nil, List.mem_cons,
        List.not_mem_nil, or_false] at hq
      rcases hq with hq | hq
      · subst hq
        exact ⟨rfl, rfl⟩
      · subst hq
        exact ⟨rfl, rfl⟩

/-- Alice's seat for the C4 witness: two face-up cards of geisha 1 and
one secret card of geisha 1. -/
def wResolveA : Player :=
  { createPlayer "alice" with
      playedCards := [{ id := "a1", geishaId := 1, type := "geisha-1" },
                      { id := "a2", geishaId := 1, type := "geisha-1" }],
      secretCards := [{ id := "a3", geishaId := 1, type := "geisha-1" }] }

/-- Bob's seat for the C4 witness: two face-up cards of geisha 1. -/
def wResolveB : Player :=
  { createPlayer "bob" with
      playedCards := [{ id := "b1", geishaId := 1, type := "geisha-1" },
                      { id := "b2", geishaId := 1, type := "geisha-1" }] }

/-- Pre-resolution state for the C4 witness: a single uncontrolled
geisha. -/
def wResolveState : GameState :=
  { emptyGameState with
      players := [wResolveA, wResolveB],
      geishas := [{ id := 1, name := "白上フブキ", charmPoints := 2,
                    controlledBy := none }] }

/-- Claim C4 (witness): resolution of a concrete two-player state — alice
played two cards of geisha 1 face up and one in secret, bob played two of
geisha 1; alice takes control 3 > 2 and the scores follow. -/
theorem resolveRound_control_and_scores_witness :
    (wResolveState.players = [wResolveA, wResolveB]) ∧
    (resolveRound wResolveState).state.geishas
      = wResolveState.geishas.map (specControlUpdate wResolveA wResolveB) ∧
    ((resolveRound wResolveState).state.geishas.map
      (fun g => g.controlledBy)) = [some "alice"] :=
  ⟨rfl,
    (resolveRound_control_and_scores wResolveState wResolveA wResolveB rfl).1,
    by decide⟩

/-- A seat index currently holding at least one unused action token. -/
def hasUnusedSeat (players : List Player) (i : Nat) : Prop :=
  ∃ q, players.get? i = some q ∧ (q.actionTokens.any (fun t => !t.used)) = true

theorem findNextAux_found :
    ∀ (players : List Player) (attempts start idx : Nat),
      findNextAvailableAux players start attempts = some idx →
      hasUnusedSeat players idx := by
  intro players attempts
  induction attempts with
  | zero => intro start idx h; simp [findNextAvailableAux] at h
  | succ att ih =>
      intro start idx h
      cases hget : players.get? start with
      | none =>
          rw [findNextAvailableAux, hget] at h
          exact ih _ idx h
      | some cand =>
          rw [findNextAvailableAux, hget] at h
          dsimp only at h
          by_cases hany : (cand.actionTokens.any (fun t => !t.used)) = true
          · rw [if_pos hany] at h
            have hidx : idx = start := by injection h with h2; exact h2.symm
            subst hidx
            exact ⟨cand, hget, hany⟩
          · rw [if_neg hany] at h
            exact ih _ idx h

theorem findNextAux_spec :
    ∀ (players : List Player) (attempts start idx : Nat),
      start < players.length →
      findNextAvailableAux players start attempts = some idx →
      ∃ k, k < attempts ∧ idx = (start + k) % players.length
        ∧ hasUnusedSeat players idx
        ∧ ∀ j, j < k → ¬ hasUnusedSeat players ((start + j) % players.length) := by
  intro players attempts
  induction attempts with
  | zero => intro start idx _ h; simp [findNextAvailableAux] at h
  | succ att ih =>
      intro start idx hstart h
      have hlenpos : 0 < players.length := Nat.lt_of_le_of_lt (Nat.zero_le _) hstart
      cases hget : players.get? start with
      | none =>
          exfalso
          have := List.get?_eq_none.mp hget
          omega
      | some cand =>
          rw [findNextAvailableAux, hget] at h
          dsimp only at h
          by_cases hany : (cand.actionTokens.any (fun t => !t.used)) = true
          · rw [if_pos hany] at h
            have hidx : idx = start := by injection h with h2; exact h2.symm
            subst hidx
            refine ⟨0, Nat.succ_pos att, ?_, ⟨cand, hget, hany⟩, ?_⟩
            · rw [Nat.add_zero, Nat.mod_eq_of_lt hstart]
            · intro j hj; omega
          · rw [if_neg hany] at h
            have hstart2 : (start + 1) % players.length < players.length :=
              Nat.mod_lt _ hlenpos
            obtain ⟨k, hk, hidx, hseat, hmin⟩ := ih _ idx hstart2 h
            refine ⟨k + 1, by omega, ?_, hseat, ?_⟩
            · rw [hidx, Nat.mod_add_mod]
              congr 1
              omega
            · intro j hj
              cases j with
              | zero =>
                  rw [Nat.add_zero, Nat.mod_eq_of_lt hstart]
                  intro hun
                  obtain ⟨q, hq, hqany⟩ := hun
                  rw [hget] at hq
                  have hqc : q = cand := by injection hq with h2; exact h2.symm
                  subst hqc
                  exact hany hqany
              | succ j2 =>
                  have := hmin j2 (by omega)
                  rw [Nat.mod_add_mod] at this
                  have heq : (start + 1 + j2) = (start + (j2 + 1)) := by omega
                  rw [heq] at this
                  exact this

/-- Claim C8: when a turn begins for the current player — if all of that
player's tokens are used the driver advances immediately (begin-turn
equals `endTurn`, no draw); otherwise exactly the first card of the draw
pile moves into the player's hand, phase becomes playing, and
pendingInteraction and lastAction are cleared.  When a turn advances — if
no seat has an unused token, round resolution is entered; otherwise the
found seat becomes current and it is exactly the first seat, scanning the
seating order cyclically from currentPlayer+1, that still has an unused
token. -/
theorem turn_begin_and_advance :
    (∀ (ctx : RoomCtx) (s : GameState) (p : Player),
        s.players.get? s.currentPlayer = some p →
        (p.actionTokens.all (fun t => t.used)) = true →
        beginTurnForCurrentPlayer ctx s = endTurn ctx s)
    ∧ (∀ (ctx : RoomCtx) (s : GameState) (p : Player) (c : Card)
        (rest : List Card),
        s.players.get? s.currentPlayer = some p →
        ¬ (p.actionTokens.all (fun t => t.used)) = true →
        s.drawPile = c :: rest →
        (beginTurnForCurrentPlayer ctx s).state
          = { s with
                players := s.players.set s.currentPlayer
                  { p with hand := p.hand ++ [c] },
                drawPile := rest,
                phase := GamePhase.playing,
                pendingInteraction := none,
                lastAction := none }
        ∧ (beginTurnForCurrentPlayer ctx s).events
            = (ctx.players.map (fun rid => ServerEvent.cardDrawn rid p.id
                (if rid = p.id then c
                 else createMaskedCard ("draw-" ++ p.id) 0)))
              ++ [ServerEvent.stateBroadcast])
    ∧ (∀ (ctx : RoomCtx) (s : GameState),
        ¬ (s.players.any (fun q => q.actionTokens.any (fun t => !t.used))) = true →
        endTurn ctx s = resolveRound s)
    ∧ (∀ (ctx : RoomCtx) (s : GameState) (idx : Nat),
        (s.players.any (fun q => q.actionTokens.any (fun t => !t.used))) = true →
        findNextAvailableAux s.players
          ((s.currentPlayer + 1) % s.players.length) s.players.length
          = some idx →
        (endTurn ctx s).state.currentPlayer = idx ∧ hasUnusedSeat s.players idx)
    ∧ (∀ (players : List Player) (attempts start idx : Nat),
        start < players.length →
        findNextAvailableAux players start attempts = some idx →
        ∃ k, k < attempts ∧ idx = (start + k) % players.length
          ∧ hasUnusedSeat players idx
          ∧ ∀ j, j < k →
              ¬ hasUnusedSeat players ((start + j) % players.length)) := by
  refine ⟨?_, ?_, ?_, ?_, findNextAux_spec⟩
  · intro ctx s p hget hall
    simp only [beginTurnForCurrentPlayer, endTurn, turnDriver, hget, hall,
      if_true]
  · intro ctx s p c rest hget hall hpile
    constructor
    · simp only [beginTurnForCurrentPlayer, turnDriver, hget]
      rw [if_neg hall]
      simp only [drawCardForPlayer, hpile]
    · simp only [beginTurnForCurrentPlayer, turnDriver, hget]
      rw [if_neg hall]
      simp only [drawCardForPlayer, hpile]
  · intro ctx s hany
    simp only [endTurn, turnDriver]
    rw [if_neg hany]
  · intro ctx s idx hany hfind
    obtain ⟨q, hq, hqany⟩ := findNextAux_found s.players s.players.length
      ((s.currentPlayer + 1) % s.players.length) idx hfind
    refine ⟨?_, ⟨q, hq, hqany⟩⟩
    simp only [endTurn, turnDriver, hany, if_true, hfind]
    have hnall : ¬ (q.actionTokens.all (fun t => t.used)) = true := by
      intro hall
      obtain ⟨t, ht, htu⟩ := List.any_eq_true.mp hqany
      have h2 := List.all_eq_true.mp hall t ht
      simp only [Bool.not_eq_true'] at htu
      rw [h2] at htu
      exact Bool.noConfusion htu
    have hget2 : ({ s with currentPlayer := idx } : GameState).players.get?
        ({ s with currentPlayer := idx } : GameState).currentPlayer = some q := hq
    simp only [turnDriver, hget2]
    rw [if_neg hnall]

/-- Alice's seat in the example round state. -/
def exAliceSeat : Player := (exState.players.get? 0).getD (createPlayer "alice")

/-- The first card of the example state's draw pile. -/
def exFirstDraw : Card :=
  exState.drawPile.headD { id := "", geishaId := 0, type := "" }

/-- Claim C8 (witness): in the example round state the current player
(alice) has unused tokens and draws the first draw-pile card. -/
theorem turn_begin_and_advance_witness :
    (exState.players.get? exState.currentPlayer = some exAliceSeat) ∧
    (¬ (exAliceSeat.actionTokens.all (fun t => t.used)) = true) ∧
    (exState.drawPile = exFirstDraw :: exState.drawPile.tail) ∧
    (beginTurnForCurrentPlayer exCtx exState).state
      = { exState with
            players := exState.players.set exState.currentPlayer
              { exAliceSeat with hand := exAliceSeat.hand ++ [exFirstDraw] },
            drawPile := exState.drawPile.tail,
            phase := GamePhase.playing,
            pendingInteraction := none,
            lastAction := none } := by
  refine ⟨by decide, by decide, by decide, ?_⟩
  exact (turn_begin_and_advance.2.1 exCtx exState exAliceSeat exFirstDraw
    exState.drawPile.tail (by decide) (by decide) (by decide)).1

/-- The target player of a pending interaction. -/
def pendingTargetId : PendingInteraction → String
  | PendingInteraction.giftSelection _ t _ => t
  | PendingInteraction.competitionSelection _ t _ => t

/-- Whether a RESOLVE_* action matches the kind of the pending
interaction. -/
def actionMatchesPending : GameAction → PendingInteraction → Prop
  | GameAction.resolveGift _, PendingInteraction.giftSelection _ _ _ => True
  | GameAction.resolveCompetition _,
      PendingInteraction.competitionSelection _ _ _ => True
  | _, _ => False

/-- Claim C6: while a pending interaction exists — every non-RESOLVE
action submission is rejected with a single ERROR frame to the submitter
and no state change; a RESOLVE submission from anyone other than the
pending interaction's target is likewise rejected with an error and no
state change; and the state can only change on a RESOLVE of the matching
kind submitted by the target. -/
theorem pending_interaction_discipline (ctx : RoomCtx) (s : GameState)
    (pid : String) (a : GameAction) (pi : PendingInteraction)
    (hpend : s.pendingInteraction = some pi) :
    (a.isResolve = false →
      ∃ m, handleAction ctx s pid a
        = { state := s, events := [ServerEvent.errorTo pid m] })
    ∧ (a.isResolve = true → ¬ pid = pendingTargetId pi →
      ∃ m, handleAction ctx s pid a
        = { state := s, events := [ServerEvent.errorTo pid m] })
    ∧ ((handleAction ctx s pid a).state ≠ s →
      a.isResolve = true ∧ pid = pendingTargetId pi
        ∧ actionMatchesPending a pi) := by
  refine ⟨?_, ?_, ?_⟩
  · intro hres
    by_cases hroom : pid ∈ ctx.players
    · simp only [handleAction, hroom, if_true]
      cases hfind : s.players.find? (fun q => q.id = pid) with
      | none => exact ⟨_, rfl⟩
      | some player =>
          dsimp only
          rw [if_pos ⟨by simp [hpend], hres⟩]
          exact ⟨_, rfl⟩
    · simp only [handleAction, hroom, if_false]
      exact ⟨_, rfl⟩
  · intro hres hne
    by_cases hroom : pid ∈ ctx.players
    · simp only [handleAction, hroom, if_true]
      cases hfind : s.players.find? (fun q => q.id = pid) with
      | none => exact ⟨_, rfl⟩
      | some player =>
          dsimp only
          rw [if_neg (by simp [hres])]
          rw [if_neg (by simp [hpend])]
          rw [if_neg (by simp [hres])]
          cases a with
          | playSecret cardId => simp [GameAction.isResolve] at hres
          | playTradeOff cardIds => simp [GameAction.isResolve] at hres
          | initiateGift cardIds => simp [GameAction.isResolve] at hres
          | initiateCompetition groups => simp [GameAction.isResolve] at hres
          | resolveGift chosenCardId =>
              dsimp only
              cases pi with
              | giftSelection ini tgt off =>
                  simp only [handleResolveGift, hpend]
                  rw [if_neg (fun h => hne (by
                    simp only [pendingTargetId]
                    exact h.symm))]
                  exact ⟨_, rfl⟩
              | competitionSelection ini tgt gs =>
                  simp only [handleResolveGift, hpend]
                  exact ⟨_, rfl⟩
          | resolveCompetition idx =>
              dsimp only
              cases pi with
              | giftSelection ini tgt off =>
                  simp only [handleResolveCompetition, hpend]
                  exact ⟨_, rfl⟩
              | competitionSelection ini tgt gs =>
                  simp only [handleResolveCompetition, hpend]
                  rw [if_neg (fun h => hne (by
                    simp only [pendingTargetId]
                    exact h.symm))]
                  exact ⟨_, rfl⟩
    · simp only [handleAction, hroom, if_false]
      exact ⟨_, rfl⟩
  · intro hst
    by_cases hroom : pid ∈ ctx.players
    · simp only [handleAction, hroom, if_true] at hst
      cases hfind : s.players.find? (fun q => q.id = pid) with
      | none =>
          rw [hfind] at hst
          dsimp only at hst
          exact absurd rfl hst
      | some player =>
          rw [hfind] at hst
          dsimp only at hst
          by_cases hres : a.isResolve = true
          · rw [if_neg (by simp [hres])] at hst
            rw [if_neg (by simp [hpend])] at hst
            rw [if_neg (by simp [hres])] at hst
            cases a with
            | playSecret cardId => simp [GameAction.isResolve] at hres
            | playTradeOff cardIds => simp [GameAction.isResolve] at hres
            | initiateGift cardIds => simp [GameAction.isResolve] at hres
            | initiateCompetition groups => simp [GameAction.isResolve] at hres
            | resolveGift chosenCardId =>
                dsimp only at hst
                cases pi with
                | giftSelection ini tgt off =>
                    by_cases htgt : tgt = pid
                    · exact ⟨rfl, htgt.symm, trivial⟩
                    · simp only [handleResolveGift, hpend] at hst
                      rw [if_neg htgt] at hst
                      exact absurd rfl hst
                | competitionSelection ini tgt gs =>
                    simp only [handleResolveGift, hpend] at hst
                    exact absurd rfl hst
            | resolveCompetition idx =>
                dsimp only at hst
                cases pi with
                | giftSelection ini tgt off =>
                    simp only [handleResolveCompetition, hpend] at hst
                    exact absurd rfl hst
                | competitionSelection ini tgt gs =>
                    by_cases htgt : tgt = pid
                    · exact ⟨rfl, htgt.symm, trivial⟩
                    · simp only [handleResolveCompetition, hpend] at hst
                      rw [if_neg htgt] at hst
                      exact absurd rfl hst
          · have hres2 : a.isResolve = false := by
              cases hx : a.isResolve
              · rfl
              · exact absurd hx hres
            rw [if_pos ⟨by simp [hpend], hres2⟩] at hst
            exact absurd rfl hst
    · simp only [handleAction, hroom, if_false] at hst
      exact absurd rfl hst

/-- The pending gift created in the example scenario. -/
def exPendingGift : PendingInteraction :=
  exAfterGift.pendingInteraction.getD
    (PendingInteraction.giftSelection "" "" [])

/-- Claim C6 (witness): after alice's gift is pending in the example
room, alice's attempt to play a secret is rejected with an error and the
state stays exactly the same. -/
theorem pending_interaction_discipline_witness :
    exAfterGift.pendingInteraction = some exPendingGift ∧
    (∃ m, handleAction exCtx exAfterGift "alice"
        (GameAction.playSecret (some "card-4-0"))
      = { state := exAfterGift, events := [ServerEvent.errorTo "alice" m] }) :=
  ⟨by decide,
    (pending_interaction_discipline exCtx exAfterGift "alice"
      (GameAction.playSecret (some "card-4-0")) exPendingGift (by decide)).1
      rfl⟩

theorem clean_resolveRound (s : GameState) :
    ((resolveRound s).events.all (fun e => !e.isError)) = true := by
  simp only [resolveRound]
  split
  · simp [ServerEvent.isError]
  · simp [ServerEvent.isError]

theorem clean_turnDriver (ctx : RoomCtx) :
    ∀ (fuel : Nat) (mode : Bool) (s : GameState),
      ((turnDriver ctx fuel mode s).events.all (fun e => !e.isError)) = true := by
  intro fuel
  induction fuel with
  | zero => intro mode s; rfl
  | succ fuel ih =>
      intro mode s
      cases mode with
      | false =>
          simp only [turnDriver]
          split
          · split
            · exact ih true _
            · simp [ServerEvent.isError]
          · exact clean_resolveRound s
      | true =>
          simp only [turnDriver]
          split
          · rfl
          · split
            · exact ih false s
            · simp only [List.all_append, Bool.and_eq_true]
              refine ⟨?_, by simp [ServerEvent.isError]⟩
              split
              · simp only [List.all_eq_true]
                intro e he
                obtain ⟨rid, -, hrid⟩ := List.mem_map.mp he
                subst hrid
                simp [ServerEvent.isError]
              · rfl

theorem filterMap_isSome_length {f : String → Option Card} :
    ∀ l : List String, (∀ a ∈ l, (f a).isSome) →
      (l.filterMap f).length = l.length := by
  intro l
  induction l with
  | nil => intro _; rfl
  | cons a as ih =>
      intro h
      have ha := h a (List.mem_cons_self a as)
      cases hfa : f a with
      | none => rw [hfa] at ha; simp at ha
      | some c =>
          simp only [List.filterMap_cons, hfa, List.length_cons]
          rw [ih (fun b hb => h b (List.mem_cons_of_mem a hb))]

theorem dichotomy_handlePlaySecret (ctx : RoomCtx) (s : GameState)
    (player : Player) (cardId : Option String) :
    (∃ m, handlePlaySecret ctx s player cardId
        = { state := s, events := [ServerEvent.errorTo player.id m] })
    ∨ ((handlePlaySecret ctx s player cardId).events.all
        (fun e => !e.isError)) = true := by
  cases cardId with
  | none => exact Or.inl ⟨_, rfl⟩
  | some cid =>
      cases hrem : removeFirstById player.hand cid with
      | none =>
          left
          simp only [handlePlaySecret, hrem]
          exact ⟨_, rfl⟩
      | some pr =>
          right
          obtain ⟨card, rest⟩ := pr
          simp only [handlePlaySecret, hrem, endTurn]
          simp only [List.all_append, Bool.and_eq_true]
          refine ⟨⟨?_, by simp [ServerEvent.isError]⟩, clean_turnDriver ctx 3 false _⟩
          simp only [List.all_eq_true]
          intro e he
          obtain ⟨rid, -, hrid⟩ := List.mem_map.mp he
          subst hrid
          simp [ServerEvent.isError]

theorem dichotomy_handleTradeOff (ctx : RoomCtx) (s : GameState)
    (player : Player) (cardIds : List String) :
    (∃ m, handleTradeOff ctx s player cardIds
        = { state := s, events := [ServerEvent.errorTo player.id m] })
    ∨ ((handleTradeOff ctx s player cardIds).events.all
        (fun e => !e.isError)) = true := by
  by_cases hlen : cardIds.length = 2
  · simp only [handleTradeOff, hlen, if_true]
    cases hv : validateCardOwnershipErr player cardIds with
    | some msg => exact Or.inl ⟨msg, rfl⟩
    | none =>
        obtain ⟨hnd, hall⟩ := ownership_none.mp hv
        have hextlen : (extractCards player.hand cardIds).1.length = 2 := by
          rw [extract_length hnd hall]
          exact hlen
        right
        simp only [tradeOffContinue, hextlen, if_true, endTurn]
        simp only [List.all_append, Bool.and_eq_true]
        refine ⟨⟨?_, by simp [ServerEvent.isError]⟩, clean_turnDriver ctx 3 false _⟩
        simp only [List.all_eq_true]
        intro e he
        obtain ⟨rid, -, hrid⟩ := List.mem_map.mp he
        subst hrid
        simp [ServerEvent.isError]
  · left
    simp only [handleTradeOff, hlen, if_false]
    exact ⟨_, rfl⟩

theorem dichotomy_handleInitiateGift (ctx : RoomCtx) (s : GameState)
    (player : Player) (cardIds : List String) :
    (∃ m, handleInitiateGift ctx s player cardIds
        = { state := s, events := [ServerEvent.errorTo player.id m] })
    ∨ ((handleInitiateGift ctx s player cardIds).events.all
        (fun e => !e.isError)) = true := by
  by_cases hlen : cardIds.length = 3
  · simp only [handleInitiateGift, hlen, if_true]
    cases hv : validateCardOwnershipErr player cardIds with
    | some msg => exact Or.inl ⟨msg, rfl⟩
    | none =>
        cases hopp : getOpponentId ctx.players player.id with
        | none => exact Or.inl ⟨_, rfl⟩
        | some opponentId =>
            obtain ⟨hnd, hall⟩ := ownership_none.mp hv
            have hextlen : (extractCards player.hand cardIds).1.length = 3 := by
              rw [extract_length hnd hall]
              exact hlen
            right
            simp only [giftContinue, hextlen, if_true]
            simp [ServerEvent.isError]
  · left
    simp only [handleInitiateGift, hlen, if_false]
    exact ⟨_, rfl⟩

theorem dichotomy_handleResolveGift (ctx : RoomCtx) (s : GameState)
    (pid : String) (chosenCardId : Option String) :
    (∃ m, handleResolveGift ctx s pid chosenCardId
        = { state := s, events := [ServerEvent.errorTo pid m] })
    ∨ ((handleResolveGift ctx s pid chosenCardId).events.all
        (fun e => !e.isError)) = true := by
  cases hpend : s.pendingInteraction with
  | none =>
      left
      simp only [handleResolveGift, hpend]
      exact ⟨_, rfl⟩
  | some pi =>
      cases pi with
      | competitionSelection i t g =>
          left
          simp only [handleResolveGift, hpend]
          exact ⟨_, rfl⟩
      | giftSelection ini tgt off =>
          by_cases htgt : tgt = pid
          · simp only [handleResolveGift, hpend, htgt, if_true]
            cases hfc : off.find? (fun c => some c.id = chosenCardId) with
            | none => exact Or.inl ⟨_, rfl⟩
            | some chosenCard =>
                cases hpi : getPlayerState s ini with
                | none => left; simp [hpi]
                | some qI =>
                    cases hpr : getPlayerState s pid with
                    | none => left; simp [hpi, hpr]
                    | some qR =>
                        right
                        simp only [hpi, hpr, endTurn]
                        simp only [List.all_append, List.all_cons, List.all_nil,
                          Bool.and_eq_true]
                        refine ⟨⟨by simp [ServerEvent.isError],
                          by simp [ServerEvent.isError], trivial⟩,
                          clean_turnDriver ctx 3 false _⟩
          · left
            simp only [handleResolveGift, hpend]
            rw [if_neg htgt]
            exact ⟨_, rfl⟩

theorem dichotomy_handleResolveCompetition (ctx : RoomCtx) (s : GameState)
    (pid : String) (idx : Nat) :
    (∃ m, handleResolveCompetition ctx s pid idx
        = { state := s, events := [ServerEvent.errorTo pid m] })
    ∨ ((handleResolveCompetition ctx s pid idx).events.all
        (fun e => !e.isError)) = true := by
  cases hpend : s.pendingInteraction with
  | none =>
      left
      simp only [handleResolveCompetition, hpend]
      exact ⟨_, rfl⟩
  | some pi =>
      cases pi with
      | giftSelection i t o =>
          left
          simp only [handleResolveCompetition, hpend]
          exact ⟨_, rfl⟩
      | competitionSelection ini tgt pgroups =>
          by_cases htgt : tgt = pid
          · simp only [handleResolveCompetition, hpend, htgt, if_true]
            cases hsel : pgroups.get? idx with
            | none => exact Or.inl ⟨_, rfl⟩
            | some selectedGroup =>
                cases hpi : getPlayerState s ini with
                | none => left; simp [hpi]
                | some qI =>
                    cases hpr : getPlayerState s pid with
                    | none => left; simp [hpi, hpr]
                    | some qR =>
                        right
                        simp only [hpi, hpr, endTurn]
                        simp only [List.all_append, List.all_cons, List.all_nil,
                          Bool.and_eq_true]
                        refine ⟨⟨by simp [ServerEvent.isError],
                          by simp [ServerEvent.isError], trivial⟩,
                          clean_turnDriver ctx 3 false _⟩
          · left
            simp only [handleResolveCompetition, hpend]
            rw [if_neg htgt]
            exact ⟨_, rfl⟩

theorem dichotomy_handleInitiateCompetition (ctx : RoomCtx) (s : GameState)
    (player : Player) (groups : List (List String)) :
    (∃ m, handleInitiateCompetition ctx s player groups
        = { state := s, events := [ServerEvent.errorTo player.id m] })
    ∨ ((handleInitiateCompetition ctx s player groups).events.all
        (fun e => !e.isError)) = true := by
  by_cases hshape : groups.length = 2 ∧ (groups.all (fun g => g.length = 2)) = true
  · simp only [handleInitiateCompetition, hshape, true_and, and_self, if_true]
    cases hopp : getOpponentId ctx.players player.id with
    | none => exact Or.inl ⟨_, rfl⟩
    | some opponentId =>
        cases hv : validateCardOwnershipErr player groups.flatten with
        | some msg => exact Or.inl ⟨msg, rfl⟩
        | none =>
            obtain ⟨hnd, hall⟩ := ownership_none.mp hv
            have hmap := extract_map_id groups.flatten player.hand hnd hall
            have hflatlen : groups.flatten.length = 4 := by
              obtain ⟨g0, g1, hpg⟩ := List.length_eq_two.mp hshape.1
              have hg0 : g0.length = 2 := by
                have := List.all_eq_true.mp hshape.2 g0 (by rw [hpg]; simp)
                simpa using this
              have hg1 : g1.length = 2 := by
                have := List.all_eq_true.mp hshape.2 g1 (by rw [hpg]; simp)
                simpa using this
              rw [hpg]
              simp [hg0, hg1]
            have hextlen : (extractCards player.hand groups.flatten).1.length = 4 := by
              rw [extract_length hnd hall]
              exact hflatlen
            have hfindsome : ∀ cid ∈ groups.flatten,
                ((extractCards player.hand groups.flatten).1.find?
                  (fun c => c.id = cid)).isSome := by
              intro cid hcid
              apply List.find?_isSome.mpr
              have : cid ∈ (extractCards player.hand groups.flatten).1.map Card.id := by
                rw [hmap]; exact hcid
              obtain ⟨c, hc, hcc⟩ := List.mem_map.mp this
              exact ⟨c, hc, by simp [hcc]⟩
            have hg2 : ((groups.map (fun g => g.filterMap
                (fun cid => (extractCards player.hand groups.flatten).1.find?
                  (fun c => c.id = cid)))).all (fun g => g.length = 2)) = true := by
              apply List.all_eq_true.mpr
              intro gc hgc
              obtain ⟨g, hg, hgeq⟩ := List.mem_map.mp hgc
              subst hgeq
              have hglen : g.length = 2 := by
                have := List.all_eq_true.mp hshape.2 g hg
                simpa using this
              have : (g.filterMap (fun cid =>
                  (extractCards player.hand groups.flatten).1.find?
                    (fun c => c.id = cid))).length = g.length := by
                apply filterMap_isSome_length
                intro a ha
                exact hfindsome a (List.mem_flatten.mpr ⟨g, hg, ha⟩)
              simp only [decide_eq_true_eq]
              rw [this, hglen]
            right
            simp only [competitionContinue, hextlen, if_true, hg2]
            simp [ServerEvent.isError]
  · left
    simp only [handleInitiateCompetition]
    rw [if_neg hshape]
    exact ⟨_, rfl⟩

/-- Claim C7: (a) every submission either produces exactly one ERROR
frame addressed to the offending player with the room state unchanged, or
produces no ERROR frame at all — failures are soft and never leak to the
other player; (b) the PLAY_TRADE_OFF continuation, when its card lookup
collects fewer than two cards after cards were already removed, pushes
all removed cards back (the hand becomes a permutation of the original),
touches no action token, and rejects with an error to the actor only;
(c) after the ownership validation passed, the lookup always collects
exactly the requested cards, so the rollback branch never fires in a
reachable submission. -/
theorem soft_failure_error_handling :
    (∀ (ctx : RoomCtx) (s : GameState) (pid : String) (a : GameAction),
      (∃ m, handleAction ctx s pid a
          = { state := s, events := [ServerEvent.errorTo pid m] })
      ∨ ((handleAction ctx s pid a).events.all (fun e => !e.isError)) = true)
    ∧ (∀ (ctx : RoomCtx) (s : GameState) (player : Player)
        (cardIds : List String) (ext : List Card × List Card),
        ¬ ext.1.length = 2 →
        (ext.1 ++ ext.2).Perm player.hand →
        (tradeOffContinue ctx s player cardIds ext).events
            = [ServerEvent.errorTo player.id "取捨卡片驗證失敗"]
        ∧ (tradeOffContinue ctx s player cardIds ext).state
            = { s with
                  players := updateFirstPlayer s.players player.id
                    (fun _ => { player with hand := ext.2 ++ ext.1 }) }
        ∧ (ext.2 ++ ext.1).Perm player.hand)
    ∧ (∀ (player : Player) (cardIds : List String),
        cardIds.Nodup →
        (∀ cid ∈ cardIds, ∃ c ∈ player.hand, c.id = cid) →
        (extractCards player.hand cardIds).1.length = cardIds.length) := by
  refine ⟨?_, ?_, ?_⟩
  · intro ctx s pid a
    by_cases hroom : pid ∈ ctx.players
    · simp only [handleAction, hroom, if_true]
      cases hfind : s.players.find? (fun q => q.id = pid) with
      | none => exact Or.inl ⟨_, rfl⟩
      | some player =>
          dsimp only
          have hpid : player.id = pid := by
            have := List.find?_some hfind
            simpa using this
          by_cases hg1 : s.pendingInteraction.isSome ∧ a.isResolve = false
          · rw [if_pos hg1]; exact Or.inl ⟨_, rfl⟩
          · rw [if_neg hg1]
            by_cases hg2 : s.pendingInteraction.isNone ∧ a.isResolve = true
            · rw [if_pos hg2]; exact Or.inl ⟨_, rfl⟩
            · rw [if_neg hg2]
              by_cases hg3 : ¬ s.phase = GamePhase.playing ∧ a.isResolve = false
              · rw [if_pos hg3]; exact Or.inl ⟨_, rfl⟩
              · rw [if_neg hg3]
                cases a with
                | playSecret cardId =>
                    dsimp only
                    by_cases hcur : currentPlayerIs s pid = true
                    · rw [if_pos hcur]
                      by_cases htok : tokenAvailable player "secret" = true
                      · rw [if_pos htok]
                        rcases dichotomy_handlePlaySecret ctx s player cardId
                          with ⟨m, hm⟩ | hclean
                        · exact Or.inl ⟨m, by rw [hm, hpid]⟩
                        · exact Or.inr hclean
                      · rw [if_neg htok]; exact Or.inl ⟨_, rfl⟩
                    · rw [if_neg hcur]; exact Or.inl ⟨_, rfl⟩
                | playTradeOff cardIds =>
                    dsimp only
                    by_cases hcur : currentPlayerIs s pid = true
                    · rw [if_pos hcur]
                      by_cases htok : tokenAvailable player "trade-off" = true
                      · rw [if_pos htok]
                        rcases dichotomy_handleTradeOff ctx s player cardIds
                          with ⟨m, hm⟩ | hclean
                        · exact Or.inl ⟨m, by rw [hm, hpid]⟩
                        · exact Or.inr hclean
                      · rw [if_neg htok]; exact Or.inl ⟨_, rfl⟩
                    · rw [if_neg hcur]; exact Or.inl ⟨_, rfl⟩
                | initiateGift cardIds =>
                    dsimp only
                    by_cases hcur : currentPlayerIs s pid = true
                    · rw [if_pos hcur]
                      by_cases htok : tokenAvailable player "gift" = true
                      · rw [if_pos htok]
                        rcases dichotomy_handleInitiateGift ctx s player cardIds
                          with ⟨m, hm⟩ | hclean
                        · exact Or.inl ⟨m, by rw [hm, hpid]⟩
                        · exact Or.inr hclean
                      · rw [if_neg htok]; exact Or.inl ⟨_, rfl⟩
                    · rw [if_neg hcur]; exact Or.inl ⟨_, rfl⟩
                | resolveGift chosenCardId =>
                    dsimp only
                    exact dichotomy_handleResolveGift ctx s pid chosenCardId
                | initiateCompetition groups =>
                    dsimp only
                    by_cases hcur : currentPlayerIs s pid = true
                    · rw [if_pos hcur]
                      by_cases htok : tokenAvailable player "competition" = true
                      · rw [if_pos htok]
                        rcases dichotomy_handleInitiateCompetition ctx s player
                          groups with ⟨m, hm⟩ | hclean
                        · exact Or.inl ⟨m, by rw [hm, hpid]⟩
                        · exact Or.inr hclean
                      · rw [if_neg htok]; exact Or.inl ⟨_, rfl⟩
                    · rw [if_neg hcur]; exact Or.inl ⟨_, rfl⟩
                | resolveCompetition idx =>
                    dsimp only
                    exact dichotomy_handleResolveCompetition ctx s pid idx
    · simp only [handleAction, hroom, if_false]
      exact Or.inl ⟨_, rfl⟩
  · intro ctx s player cardIds ext hlen hperm
    refine ⟨?_, ?_, ?_⟩
    · simp only [tradeOffContinue]
      rw [if_neg hlen]
    · simp only [tradeOffContinue]
      rw [if_neg hlen]
    · exact (List.perm_append_comm).trans hperm
  · intro player cardIds hnd hall
    exact extract_length hnd hall

/-- A one-card hand used by the C7 witness. -/
def wRollbackPlayer : Player :=
  { createPlayer "carol" with
      hand := [{ id := "r1", geishaId := 1, type := "geisha-1" }] }

/-- Claim C7 (witness): the trade-off rollback branch applied to a
concrete one-card extraction — the error goes to the actor and the card
returns to the hand. -/
theorem soft_failure_error_handling_witness :
    (¬ (([{ id := "r1", geishaId := 1, type := "geisha-1" }] : List Card),
        ([] : List Card)).1.length = 2) ∧
    (tradeOffContinue exCtx emptyGameState wRollbackPlayer ["r1", "r2"]
        ([{ id := "r1", geishaId := 1, type := "geisha-1" }], [])).events
      = [ServerEvent.errorTo "carol" "取捨卡片驗證失敗"] :=
  ⟨by decide,
    (soft_failure_error_handling.2.1 exCtx emptyGameState wRollbackPlayer
      ["r1", "r2"] ([{ id := "r1", geishaId := 1, type := "geisha-1" }], [])
      (by decide) (by decide)).1⟩

theorem markTokenUsed_find :
    ∀ (tokens : List ActionToken) (ty : String) (tk : ActionToken),
      tokens.find? (fun t => t.type = ty) = some tk →
      (markTokenUsed tokens ty).find? (fun t => t.type = ty)
        = some { tk with used := true } := by
  intro tokens
  induction tokens with
  | nil => intro ty tk h; simp [List.find?] at h
  | cons t ts ih =>
      intro ty tk h
      by_cases ht : t.type = ty
      · rw [List.find?_cons_of_pos _ (by simpa using ht)] at h
        have htk : tk = t := by injection h with h2; exact h2.symm
        subst htk
        simp only [markTokenUsed, ht, if_true]
        rw [List.find?_cons_of_pos _ (by simp [ht])]
      · rw [List.find?_cons_of_neg _ (by simpa using ht)] at h
        simp only [markTokenUsed, ht, if_false]
        rw [List.find?_cons_of_neg _ (by simpa using ht)]
        exact ih ty tk h

theorem find?_updateFirst_self :
    ∀ (l : List Player) (pid : String) (f : Player → Player) (q : Player),
      l.find? (fun p => p.id = pid) = some q →
      (f q).id = pid →
      (updateFirstPlayer l pid f).find? (fun p => p.id = pid) = some (f q) := by
  intro l
  induction l with
  | nil => intro pid f q h _; simp [List.find?] at h
  | cons p ps ih =>
      intro pid f q h hfid
      by_cases hp : p.id = pid
      · rw [List.find?_cons_of_pos _ (by simpa using hp)] at h
        have hq : q = p := by injection h with h2; exact h2.symm
        subst hq
        simp only [updateFirstPlayer, hp, if_true]
        rw [List.find?_cons_of_pos _ (by simpa using hfid)]
      · rw [List.find?_cons_of_neg _ (by simpa using hp)] at h
        simp only [updateFirstPlayer, hp, if_false]
        rw [List.find?_cons_of_neg _ (by simpa using hp)]
        exact ih pid f q h hfid

theorem find?_updateFirst_ne :
    ∀ (l : List Player) (pid pid2 : String) (f : Player → Player),
      (∀ p, (f p).id = p.id) →
      ¬ pid2 = pid →
      (updateFirstPlayer l pid f).find? (fun p => p.id = pid2)
        = l.find? (fun p => p.id = pid2) := by
  intro l
  induction l with
  | nil => intro pid pid2 f _ _; rfl
  | cons p ps ih =>
      intro pid pid2 f hid hne
      by_cases hp : p.id = pid
      · simp only [updateFirstPlayer, hp, if_true]
        have hfp : ¬ (f p).id = pid2 := by
          rw [hid p, hp]
          intro h2
          exact hne h2.symm
        have hpp : ¬ p.id = pid2 := by
          rw [hp]
          intro h2
          exact hne h2.symm
        rw [List.find?_cons_of_neg _ (by simpa using hfp)]
        rw [List.find?_cons_of_neg _ (by simpa using hpp)]
      · simp only [updateFirstPlayer, hp, if_false]
        by_cases hp2 : p.id = pid2
        · rw [List.find?_cons_of_pos _ (by simpa using hp2)]
          rw [List.find?_cons_of_pos _ (by simpa using hp2)]
        · rw [List.find?_cons_of_neg _ (by simpa using hp2)]
          rw [List.find?_cons_of_neg _ (by simpa using hp2)]
          exact ih pid pid2 f hid hne

/-- Claim C2: (a) a player on turn with an unused gift token submitting
INITIATE_GIFT with three distinct owned card ids has exactly those three
cards leave the hand (the extraction picks cards whose ids are the
submitted ids and splits the hand into them plus the rest),
pendingInteraction becomes a GiftSelection naming the submitter as
initiator and the opponent as target, the gift token is marked used, and
currentPlayer does not change; (b) RESOLVE_GIFT from anyone but the
target is rejected with an error and no state change; (c) RESOLVE_GIFT
by the target for a card id outside the offer is rejected likewise;
(d) the target's valid RESOLVE_GIFT puts the chosen card into the
target's playedCards and the remaining two into the initiator's, clears
pendingInteraction, and hands the state to the turn-advance driver
(`endTurn`). -/
theorem gift_two_phase :
    (∀ (ctx : RoomCtx) (s : GameState) (pid : String) (player : Player)
        (a b c : String) (opponentId : String) (tk : ActionToken),
      pid ∈ ctx.players →
      s.players.find? (fun q => q.id = pid) = some player →
      s.pendingInteraction = none →
      s.phase = GamePhase.playing →
      currentPlayerIs s pid = true →
      player.actionTokens.find? (fun t => t.type = "gift") = some tk →
      tk.used = false →
      ([a, b, c] : List String).Nodup →
      (∀ cid ∈ ([a, b, c] : List String), ∃ cd ∈ player.hand, cd.id = cid) →
      getOpponentId ctx.players pid = some opponentId →
      (handleAction ctx s pid
          (GameAction.initiateGift [a, b, c])).state.pendingInteraction
          = some (PendingInteraction.giftSelection pid opponentId
              (extractCards player.hand [a, b, c]).1)
      ∧ (extractCards player.hand [a, b, c]).1.map Card.id = [a, b, c]
      ∧ player.hand.Perm ((extractCards player.hand [a, b, c]).1
          ++ (extractCards player.hand [a, b, c]).2)
      ∧ (handleAction ctx s pid
          (GameAction.initiateGift [a, b, c])).state.currentPlayer
          = s.currentPlayer
      ∧ getPlayerState (handleAction ctx s pid
            (GameAction.initiateGift [a, b, c])).state pid
          = some { player with
                     hand := (extractCards player.hand [a, b, c]).2,
                     actionTokens := markTokenUsed player.actionTokens "gift" }
      ∧ (markTokenUsed player.actionTokens "gift").find?
            (fun t => t.type = "gift") = some { tk with used := true })
    ∧ (∀ (ctx : RoomCtx) (s : GameState) (pid ini tgt : String)
        (off : List Card) (ch : Option String),
      s.pendingInteraction = some (PendingInteraction.giftSelection ini tgt off) →
      ¬ tgt = pid →
      ∃ m, handleResolveGift ctx s pid ch
        = { state := s, events := [ServerEvent.errorTo pid m] })
    ∧ (∀ (ctx : RoomCtx) (s : GameState) (ini tgt : String)
        (off : List Card) (ch : Option String),
      s.pendingInteraction = some (PendingInteraction.giftSelection ini tgt off) →
      off.find? (fun cd => some cd.id = ch) = none →
      ∃ m, handleResolveGift ctx s tgt ch
        = { state := s, events := [ServerEvent.errorTo tgt m] })
    ∧ (∀ (ctx : RoomCtx) (s : GameState) (ini tgt : String)
        (off : List Card) (ch : Option String) (chosenCard : Card)
        (qI qR : Player),
      s.pendingInteraction = some (PendingInteraction.giftSelection ini tgt off) →
      ¬ ini = tgt →
      off.find? (fun cd => some cd.id = ch) = some chosenCard →
      getPlayerState s ini = some qI →
      getPlayerState s tgt = some qR →
      ∃ s4, handleResolveGift ctx s tgt ch
          = { state := (endTurn ctx s4).state,
              events := [ServerEvent.interactionResolved "GIFT_SELECTION" ini tgt,
                ServerEvent.stateBroadcast] ++ (endTurn ctx s4).events }
        ∧ s4.pendingInteraction = none
        ∧ getPlayerState s4 tgt
            = some { qR with playedCards := qR.playedCards ++ [chosenCard] }
        ∧ getPlayerState s4 ini
            = some { qI with playedCards := qI.playedCards
                ++ off.filter (fun cd => ¬ some cd.id = ch) }) := by
  refine ⟨?_, ?_, ?_, ?_⟩
  · intro ctx s pid player a b c opponentId tk hroom hfind hpend hphase hcur
      htk htku hnodup hall hopp
    have hpid : player.id = pid := by
      have := List.find?_some hfind
      simpa using this
    have hv : validateCardOwnershipErr player [a, b, c] = none :=
      ownership_none.mpr ⟨hnodup, hall⟩
    have hextlen : (extractCards player.hand [a, b, c]).1.length = 3 := by
      rw [extract_length hnodup hall]; rfl
    have htokav : tokenAvailable player "gift" = true := by
      simp [tokenAvailable, htk, htku]
    have hred : handleAction ctx s pid (GameAction.initiateGift [a, b, c])
        = giftContinue ctx s player opponentId
            (extractCards player.hand [a, b, c]) := by
      simp only [handleAction, hroom, if_true, hfind]
      rw [if_neg (by simp [hpend])]
      rw [if_neg (by simp [GameAction.isResolve])]
      rw [if_neg (by simp [hphase])]
      rw [if_pos hcur, if_pos htokav]
      simp only [handleInitiateGift, List.length_cons, List.length_nil, hv]
      rw [if_pos trivial]
      simp only [hpid, hopp]
    have hcont : (giftContinue ctx s player opponentId
        (extractCards player.hand [a, b, c])).state
        = { s with
              players := updateFirstPlayer s.players player.id (fun _ =>
                { player with
                    hand := (extractCards player.hand [a, b, c]).2,
                    actionTokens := markTokenUsed player.actionTokens "gift" }),
              pendingInteraction := some (PendingInteraction.giftSelection
                player.id opponentId (extractCards player.hand [a, b, c]).1),
              lastAction := some { playerId := player.id, action := "gift" } } := by
      simp only [giftContinue, hextlen, if_pos]
    refine ⟨?_, extract_map_id [a, b, c] player.hand hnodup hall,
      (extract_append_perm [a, b, c] player.hand).symm, ?_, ?_, ?_⟩
    · rw [hred, hcont, hpid]
    · rw [hred, hcont]
    · rw [hred, hcont]
      show (updateFirstPlayer s.players player.id _).find?
          (fun p => p.id = pid) = _
      rw [← hpid]
      exact find?_updateFirst_self s.players player.id _ player
        (by rw [hpid]; exact hfind) rfl
    · exact markTokenUsed_find player.actionTokens "gift" tk htk
  · intro ctx s pid ini tgt off ch hpend hne
    simp only [handleResolveGift, hpend]
    rw [if_neg hne]
    exact ⟨_, rfl⟩
  · intro ctx s ini tgt off ch hpend hnone
    simp only [handleResolveGift, hpend, eq_self_iff_true, if_true, hnone]
    exact ⟨_, rfl⟩
  · intro ctx s ini tgt off ch chosenCard qI qR hpend hne hfc hqI hqR
    have htgtid : qR.id = tgt := by
      have := List.find?_some hqR
      simpa using this
    have hiniid : qI.id = ini := by
      have := List.find?_some hqI
      simpa using this
    refine ⟨{ s with
        players := updateFirstPlayer (updateFirstPlayer s.players tgt (fun q =>
            { q with playedCards := q.playedCards ++ [chosenCard] })) ini (fun q =>
            { q with playedCards := q.playedCards ++ off.filter (fun cd => ¬ some cd.id = ch) }),
        pendingInteraction := none }, ?_, rfl, ?_, ?_⟩
    · simp only [handleResolveGift, hpend, eq_self_iff_true, if_true, hfc, hqI, hqR]
    · show (updateFirstPlayer (updateFirstPlayer s.players tgt _) ini _).find?
        (fun p => p.id = tgt) = _
      rw [find?_updateFirst_ne _ ini tgt (fun q =>
          { q with playedCards := q.playedCards ++ off.filter (fun cd => ¬ some cd.id = ch) })
        (fun p => rfl) (fun h => hne h.symm)]
      exact find?_updateFirst_self s.players tgt _ qR hqR (by simp [htgtid])
    · show (updateFirstPlayer (updateFirstPlayer s.players tgt _) ini _).find?
        (fun p => p.id = ini) = _
      have hfindini : (updateFirstPlayer s.players tgt (fun q =>
          { q with playedCards := q.playedCards ++ [chosenCard] })).find?
          (fun p => p.id = ini) = some qI := by
        rw [find?_updateFirst_ne _ tgt ini (fun q =>
          { q with playedCards := q.playedCards ++ [chosenCard] }) (fun p => rfl) hne]
        exact hqI
      exact find?_updateFirst_self _ ini _ qI hfindini (by simp [hiniid])

/-- Alice's seat in the example room, as found by the dispatcher. -/
def exAlice : Player :=
  (exState.players.find? (fun q => q.id = "alice")).getD (createPlayer "none")

/-- Alice's unused gift token in the example room. -/
def exGiftToken : ActionToken :=
  (exAlice.actionTokens.find? (fun t => t.type = "gift")).getD
    { type := "", used := true }

/-- Claim C2 (witness): in the example room alice, on turn with an unused
gift token, submits INITIATE_GIFT with three ids of cards in her hand;
the resulting pending interaction, the extracted cards, the unchanged
current player, alice's updated seat and the used gift token are all as
the two-phase theorem predicts. -/
theorem gift_two_phase_witness :
    (handleAction exCtx exState "alice"
        (GameAction.initiateGift ["card-1-0", "card-2-0", "card-3-0"])).state.pendingInteraction
        = some (PendingInteraction.giftSelection "alice" "bob"
            (extractCards exAlice.hand ["card-1-0", "card-2-0", "card-3-0"]).1)
      ∧ (extractCards exAlice.hand ["card-1-0", "card-2-0", "card-3-0"]).1.map Card.id
          = ["card-1-0", "card-2-0", "card-3-0"]
      ∧ exAlice.hand.Perm
          ((extractCards exAlice.hand ["card-1-0", "card-2-0", "card-3-0"]).1
            ++ (extractCards exAlice.hand ["card-1-0", "card-2-0", "card-3-0"]).2)
      ∧ (handleAction exCtx exState "alice"
          (GameAction.initiateGift ["card-1-0", "card-2-0", "card-3-0"])).state.currentPlayer
          = exState.currentPlayer
      ∧ getPlayerState (handleAction exCtx exState "alice"
            (GameAction.initiateGift ["card-1-0", "card-2-0", "card-3-0"])).state "alice"
          = some { exAlice with
                     hand := (extractCards exAlice.hand
                       ["card-1-0", "card-2-0", "card-3-0"]).2,
                     actionTokens := markTokenUsed exAlice.actionTokens "gift" }
      ∧ (markTokenUsed exAlice.actionTokens "gift").find?
            (fun t => t.type = "gift") = some { exGiftToken with used := true } :=
  gift_two_phase.1 exCtx exState "alice" exAlice "card-1-0" "card-2-0" "card-3-0"
    "bob" exGiftToken (by decide) (by decide) (by decide) (by decide) (by decide)
    (by decide) (by decide) (by decide) (by decide) (by decide)

end HoloKoji
